import Mathlib

/-!
# COVID statistics service: the fetch / cache / aggregate core

A shallow embedding of `lib/stats/stats.go` (package `stats`) and of the
collaborators it calls, followed by the properties of the specification that
concern the dataset accessor (`requestData`, `GetAllCountries`), the country
lookup (`GetCountry`), the derived statistics (`PercentancePerCountry`,
`GetTotalStats`), the eight `SortBy...` functions, the sort controller
(`controller/sort/sort.go`), the continent accessor and the comparison
controller (`controller/compare/compare.go`) with the comparison engine.

Conventions of the embedding.

* Go's `int` is the 64-bit two's-complement integer: values are `Int`, and
  every arithmetic result is reduced by `wrapInt64`.
* A Go function returning `(T, error)` returns a pair `T × Option GoError`
  (`none` is the `nil` error).  A function that can hit a run-time panic
  returns a `GoResult`.
* The cache, the upstream HTTP exchange and the sequence of calls made to
  them are explicit in a `World`, threaded through every function.
* `sort.Slice` belongs to Go's standard library: the functions that call it
  take its implementation as a parameter, and their properties are proved
  for every implementation that meets its documented contract.
-/

namespace Covid

set_option linter.dupNamespace false

/-! ## Go integers -/

/-- Reduction of an integer to the range of Go's 64-bit `int`, as two's-complement
overflow does. -/
def wrapInt64 (i : Int) : Int := (i + 2 ^ 63) % 2 ^ 64 - 2 ^ 63

/-- Go's `a + b` on `int`. -/
def goAdd (a b : Int) : Int := wrapInt64 (a + b)

/-- Go's `a * b` on `int`. -/
def goMul (a b : Int) : Int := wrapInt64 (a * b)

/-- Go's `a / b` on `int`: the quotient truncated toward zero; a zero divisor is the
run-time panic "integer divide by zero", here `none`. -/
def goDiv (a b : Int) : Option Int :=
  if b = 0 then none else some (wrapInt64 (Int.tdiv a b))

/-! ## Values of the Go run time -/

/-- A non-nil value of Go's `error` interface, identified by its message. -/
structure GoError where
  msg : String
deriving DecidableEq, Repr

/-- The run-time panics the modelled code can raise. -/
inductive RuntimePanic where
  | integerDivideByZero
deriving DecidableEq, Repr

/-- Outcome of a call of a Go function of result type `(α, error)`: either it returns
its pair of results, or a run-time panic unwinds it. -/
inductive GoResult (α : Type) where
  | returned (val : α) (err : Option GoError)
  | panicked (reason : RuntimePanic)
deriving DecidableEq, Repr

/-! ## Data model (package `structs`) -/

/-- Modelled from the spec: the record type `structs.Country` (package `lib/structs`
is not among the sources).  The fields are those `stats.go` reads; the counts are
Go `int`s and `casesPerOneMillion` is a float, whose finite values are taken as
rationals. -/
structure Country where
  Country : String
  Cases : Int
  TodayCases : Int
  Deaths : Int
  TodayDeaths : Int
  Recovered : Int
  Active : Int
  Critical : Int
  CasesPerOneMillion : Rat
deriving DecidableEq, Repr

/-- The zero value `structs.Country{}`. -/
def Country.zero : Covid.Country :=
  { Country := "", Cases := 0, TodayCases := 0, Deaths := 0, TodayDeaths := 0,
    Recovered := 0, Active := 0, Critical := 0, CasesPerOneMillion := 0 }

/-- Modelled from the spec: the dataset type `structs.Countries`, a struct whose field
`Data` is the slice of country records. -/
structure Countries where
  Data : List Country
deriving DecidableEq, Repr

/-- The zero value `structs.Countries{}`. -/
def Countries.zero : Countries := { Data := [] }

/-- Modelled from the spec: the type `structs.CountryStats`. -/
structure CountryStats where
  Country : String
  TodayPerCentOfTotalCases : Int
  TodayPerCentOfTotalDeaths : Int
deriving DecidableEq, Repr

/-- The zero value `structs.CountryStats{}`. -/
def CountryStats.zero : CountryStats :=
  { Country := "", TodayPerCentOfTotalCases := 0, TodayPerCentOfTotalDeaths := 0 }

/-- Modelled from the spec: the type `structs.TotalStats`. -/
structure TotalStats where
  TodayPerCentOfTotalCases : Int
  TodayPerCentOfTotalDeaths : Int
  TotalCases : Int
  TotalDeaths : Int
  TodayTotalCases : Int
  TodayTotalDeaths : Int
deriving DecidableEq, Repr

/-- The zero value `structs.TotalStats{}`. -/
def TotalStats.zero : TotalStats :=
  { TodayPerCentOfTotalCases := 0, TodayPerCentOfTotalDeaths := 0, TotalCases := 0,
    TotalDeaths := 0, TodayTotalCases := 0, TodayTotalDeaths := 0 }

/-! ## The world outside the core: cache, upstream, calls made -/

/-- What the cache holds under a key: bytes that deserialize to a dataset, or bytes
that do not decode. -/
inductive Payload where
  | snapshot (data : Countries)
  | undecodable
deriving DecidableEq, Repr

/-- The upstream HTTP exchange as `requestData` observes it: the error of each step
(`http.NewRequest`, `client.Do`, `ioutil.ReadAll`, `json.Unmarshal`) and the contents
of the slice `keys` after `json.Unmarshal(b, &keys)`. -/
structure Upstream where
  newRequestError : Option GoError
  doError : Option GoError
  readBodyError : Option GoError
  unmarshalKeys : List Country
  unmarshalError : Option GoError
deriving DecidableEq, Repr

/-- The calls the core makes to its collaborators, in the order it makes them. -/
inductive Event where
  | connGet
  | cacheGet (key : String)
  | requestData
  | cacheSet (key : String) (data : Countries)
  | connClose
deriving DecidableEq, Repr

/-- State of the collaborators: the contents of the cache store, the transport faults
of cache reads and of cache writes, the upstream exchange, and the trace of calls. -/
structure World where
  store : List (String × Payload)
  getFault : Option GoError
  setFault : Option GoError
  upstream : Upstream
  trace : List Event
deriving DecidableEq, Repr

/-- Append a call to the trace. -/
def World.record (w : World) (e : Event) : World :=
  { w with trace := w.trace ++ [e] }

/-- Number of calls of `requestData` in a trace. -/
def upstreamCalls (t : List Event) : Nat := t.count Event.requestData

/-- The error a cached payload that does not decode produces. -/
def cacheCorrupt : GoError := { msg := "cache payload does not decode" }

/-- Modelled from the spec: `caching.Get(conn, key)` (package `lib/caching` is not among
the sources).  A transport failure is returned as the error; an absent key is an empty
dataset with a nil error; a payload that deserializes is returned; a payload that does
not decode is an error. -/
def caching.Get (w : World) (key : String) : (Countries × Option GoError) × World :=
  let w := w.record (Event.cacheGet key)
  match w.getFault with
  | some e => ((Countries.zero, some e), w)
  | none =>
    match w.store.lookup key with
    | none => ((Countries.zero, none), w)
    | some (Payload.snapshot data) => ((data, none), w)
    | some Payload.undecodable => ((Countries.zero, some cacheCorrupt), w)

/-- Modelled from the spec: `caching.Set(conn, data, key)` (package `lib/caching` is not
among the sources).  A transport failure is returned and leaves the store as it was;
otherwise the serialized dataset replaces what the key held. -/
def caching.Set (w : World) (data : Countries) (key : String) : Option GoError × World :=
  let w := w.record (Event.cacheSet key data)
  match w.setFault with
  | some e => (some e, w)
  | none =>
    (none, { w with store := (key, Payload.snapshot data) :: w.store.filter (fun p => p.1 ≠ key) })

/-! ## Package `stats` -/

/-- The function `requestData` of `stats.go`.  The guard after `json.Unmarshal` tests
`err`, the variable assigned by `http.NewRequest`, as the source does. -/
def requestData (w : World) : (List Country × Option GoError) × World :=
  let w := w.record Event.requestData
  let err := w.upstream.newRequestError
  if err ≠ none then (([], err), w)
  else
    let resError := w.upstream.doError
    if resError ≠ none then (([], resError), w)
    else
      let readBoyError := w.upstream.readBodyError
      if readBoyError ≠ none then (([], readBoyError), w)
      else
        let keys := w.upstream.unmarshalKeys
        let errUnmarshal := w.upstream.unmarshalError
        if err ≠ none then (([], errUnmarshal), w)
        else ((keys, none), w)

/-- The function `GetAllCountries` of `stats.go`.  The deferred `conn.Close()` runs on
every return. -/
def GetAllCountries (w : World) : (Countries × Option GoError) × World :=
  let w := w.record Event.connGet
  let got := caching.Get w "total"
  let cachedData := got.1.1
  let cacheGetError := got.1.2
  let w := got.2
  if cacheGetError ≠ none then ((Countries.zero, cacheGetError), w.record Event.connClose)
  else if cachedData.Data.length = 0 then
    let fetched := requestData w
    let response := fetched.1.1
    let responseError := fetched.1.2
    let w := fetched.2
    if responseError ≠ none then ((Countries.zero, responseError), w.record Event.connClose)
    else
      let s : Countries := { Data := response }
      let w := (caching.Set w s "total").2
      ((s, none), w.record Event.connClose)
  else ((cachedData, none), w.record Event.connClose)

/-- The function `GetCountry` of `stats.go`: a linear scan for the first record whose
name equals `name`. -/
def GetCountry (name : String) (w : World) : (Country × Option GoError) × World :=
  let got := GetAllCountries w
  let allCountries := got.1.1
  let allCountriesError := got.1.2
  let w := got.2
  if allCountriesError ≠ none then ((Country.zero, allCountriesError), w)
  else
    match allCountries.Data.find? (fun v => v.Country = name) with
    | some v => ((v, none), w)
    | none => ((Country.zero, none), w)

/-- The function `PercentancePerCountry` of `stats.go`. -/
def PercentancePerCountry (name : String) (w : World) : GoResult CountryStats × World :=
  let got := GetCountry name w
  let country := got.1.1
  let countryError := got.1.2
  let w := got.2
  if countryError ≠ none then (GoResult.returned CountryStats.zero none, w)
  else
    match goDiv (goMul country.TodayCases 100) country.Cases with
    | none => (GoResult.panicked RuntimePanic.integerDivideByZero, w)
    | some todayPerCentOfTotalCases =>
      match goDiv (goMul country.TodayDeaths 100) country.Deaths with
      | none => (GoResult.panicked RuntimePanic.integerDivideByZero, w)
      | some todayPerCentOfTotalDeaths =>
        (GoResult.returned
          { Country := country.Country,
            TodayPerCentOfTotalCases := todayPerCentOfTotalCases,
            TodayPerCentOfTotalDeaths := todayPerCentOfTotalDeaths } none, w)

/-- The four running totals of the loop of `GetTotalStats`. -/
structure Totals where
  totalDeaths : Int
  totalCases : Int
  todayTotalDeaths : Int
  todayTotalCases : Int
deriving DecidableEq, Repr

/-- One iteration of the loop of `GetTotalStats`: the record named "World" is skipped,
any other record is added to the four totals. -/
def totalsStep (acc : Totals) (v : Country) : Totals :=
  if v.Country = "World" then acc
  else
    { totalDeaths := goAdd acc.totalDeaths v.Deaths,
      totalCases := goAdd acc.totalCases v.Cases,
      todayTotalDeaths := goAdd acc.todayTotalDeaths v.TodayDeaths,
      todayTotalCases := goAdd acc.todayTotalCases v.TodayCases }

/-- The function `GetTotalStats` of `stats.go`.  As in the source, the field
`TodayPerCentOfTotalCases` is computed from the death totals and the field
`TodayPerCentOfTotalDeaths` from the case totals. -/
def GetTotalStats (w : World) : GoResult TotalStats × World :=
  let got := GetAllCountries w
  let allCountriesArr := got.1.1
  let errorAllCountries := got.1.2
  let w := got.2
  if errorAllCountries ≠ none then (GoResult.returned TotalStats.zero none, w)
  else
    let allCountries := allCountriesArr.Data
    let t := allCountries.foldl totalsStep
      { totalDeaths := 0, totalCases := 0, todayTotalDeaths := 0, todayTotalCases := 0 }
    match goDiv (goMul t.todayTotalDeaths 100) t.totalDeaths with
    | none => (GoResult.panicked RuntimePanic.integerDivideByZero, w)
    | some todayPerCentOfTotalCases =>
      match goDiv (goMul t.todayTotalCases 100) t.totalCases with
      | none => (GoResult.panicked RuntimePanic.integerDivideByZero, w)
      | some todayPerCentOfTotalDeaths =>
        (GoResult.returned
          { TodayPerCentOfTotalCases := todayPerCentOfTotalCases,
            TodayPerCentOfTotalDeaths := todayPerCentOfTotalDeaths,
            TotalCases := t.totalCases,
            TotalDeaths := t.totalDeaths,
            TodayTotalCases := t.todayTotalCases,
            TodayTotalDeaths := t.todayTotalDeaths } none, w)

/-! ## Concrete worlds used to evaluate the code -/

/-- A record with the given name and the four counts the statistics read; the other
fields are zero. -/
def mkCountry (name : String) (cases todayCases deaths todayDeaths : Int) : Country :=
  { Country := name, Cases := cases, TodayCases := todayCases, Deaths := deaths,
    TodayDeaths := todayDeaths, Recovered := 0, Active := 0, Critical := 0,
    CasesPerOneMillion := 0 }

/-- An upstream exchange in which every step succeeds and the body decodes to `keys`. -/
def upstreamOk (keys : List Country) : Upstream :=
  { newRequestError := none, doError := none, readBodyError := none,
    unmarshalKeys := keys, unmarshalError := none }

/-- A world whose cache holds the dataset `ds` under the key "total", with no transport
fault and an upstream that would answer `fresh`. -/
def warmWorld (ds fresh : List Country) : World :=
  { store := [("total", Payload.snapshot { Data := ds })], getFault := none,
    setFault := none, upstream := upstreamOk fresh, trace := [] }

/-- A world whose cache is empty, with no transport fault and the upstream `u`. -/
def coldWorld (u : Upstream) : World :=
  { store := [], getFault := none, setFault := none, upstream := u, trace := [] }

/-- A world whose cache holds, under the key "total", a payload that does not decode. -/
def corruptWorld (fresh : List Country) : World :=
  { store := [("total", Payload.undecodable)], getFault := none, setFault := none,
    upstream := upstreamOk fresh, trace := [] }

/-- An upstream exchange whose body is fetched and read but does not decode as a list
of country records: `json.Unmarshal` fails and leaves `keys` empty. -/
def upstreamBadBody : Upstream :=
  { newRequestError := none, doError := none, readBodyError := none,
    unmarshalKeys := [],
    unmarshalError := some { msg := "invalid character looking for beginning of value" } }

/-- An upstream exchange whose HTTP request fails. -/
def upstreamDown : Upstream :=
  { newRequestError := none, doError := some { msg := "connection refused" },
    readBodyError := none, unmarshalKeys := [], unmarshalError := none }

/-! ## Sorting: `sort.Slice` and the `SortBy...` functions -/

/-- The requirement of Go's package `sort` on a `less` function: it is irreflexive and
describes a transitive ordering whose incomparability is transitive too. -/
def IsStrictWeakOrder (less : Country → Country → Bool) : Prop :=
  (∀ a, less a a = false) ∧
    (∀ a b c, less a b = true → less b c = true → less a c = true) ∧
    (∀ a b c, less a b = false → less b c = false → less a c = false)

/-- The documented contract of `sort.Slice(x, less)`, a function of Go's standard
library: the slice is rearranged by swaps, so the result is a permutation of the input,
and for a `less` meeting the requirement the result is sorted in the sense of
`sort.SliceIsSorted` (no element is `less` than its predecessor).  The documentation
adds that the sort is not guaranteed to be stable. -/
def SliceSortContract
    (sortSlice : (Country → Country → Bool) → List Country → List Country) : Prop :=
  ∀ less l, (sortSlice less l).Perm l ∧
    (IsStrictWeakOrder less → (sortSlice less l).Chain' (fun a b => less b a = false))

/-- The function `insertionSort_func` of Go's package `sort`: each element in turn is
swapped leftward while it is `less` than its left neighbour.  The sorted part is kept in
reverse, its last element first. -/
def insertionSort_func (less : Country → Country → Bool) (l : List Country) : List Country :=
  (l.foldl (fun sortedRev x => List.orderedInsert (fun a b => less a b = false) x sortedRev)
    []).reverse

/-- The Shell pass with gap 6 of Go's `quickSort_func` on a slice of at most 12 elements:
the element at index `i` (in `ys`, the elements from index 6 on) is swapped with the one
at index `i - 6` (in `xs`, the first six) when it is `less`. -/
def shellPass (less : Country → Country → Bool) :
    List Country → List Country → List Country × List Country
  | x :: xs, y :: ys =>
    if less y x then (y :: (shellPass less xs ys).1, x :: (shellPass less xs ys).2)
    else (x :: (shellPass less xs ys).1, y :: (shellPass less xs ys).2)
  | xs, [] => (xs, [])
  | [], ys => ([], ys)

/-- What `sort.Slice` of the Go releases up to 1.18 executes on a slice of at most 12
elements: the Shell pass with gap 6, then the insertion sort.  On longer slices those
releases partition the slice first; here the same two passes are run on every slice,
which also sorts it. -/
def sortSliceShort (less : Country → Country → Bool) (l : List Country) : List Country :=
  insertionSort_func less
    ((shellPass less (l.take 6) (l.drop 6)).1 ++ (shellPass less (l.take 6) (l.drop 6)).2)

/-- The `less` closure of `SortByCases`. -/
def lessCases (a b : Country) : Bool :=
  if a.Cases ≠ b.Cases then decide (a.Cases > b.Cases) else decide (a.Deaths > b.Deaths)

/-- The `less` closure of `SortByDeaths`. -/
def lessDeaths (a b : Country) : Bool :=
  if a.Deaths ≠ b.Deaths then decide (a.Deaths > b.Deaths) else decide (a.Cases > b.Cases)

/-- The `less` closure of `SortByTodayCases`. -/
def lessTodayCases (a b : Country) : Bool := decide (a.TodayCases > b.TodayCases)

/-- The `less` closure of `SortByTodayDeaths`. -/
def lessTodayDeaths (a b : Country) : Bool := decide (a.TodayDeaths > b.TodayDeaths)

/-- The `less` closure of `SortByRecovered`. -/
def lessRecovered (a b : Country) : Bool := decide (a.Recovered > b.Recovered)

/-- The `less` closure of `SortByActive`. -/
def lessActive (a b : Country) : Bool := decide (a.Active > b.Active)

/-- The `less` closure of `SortByCritical`. -/
def lessCritical (a b : Country) : Bool := decide (a.Critical > b.Critical)

/-- The `less` closure of `SortByCasesPerOneMillion`. -/
def lessCasesPerOneMillion (a b : Country) : Bool :=
  decide (a.CasesPerOneMillion > b.CasesPerOneMillion)

/-- The body that the eight `SortBy...` functions of `stats.go` share, the `less` closure
apart: fetch the dataset, return the error if there is one, otherwise sort the records
with `sort.Slice` and return them.  The implementation of `sort.Slice` is a parameter. -/
def sortCountriesBy (sortSlice : (Country → Country → Bool) → List Country → List Country)
    (less : Country → Country → Bool) (w : World) : (Countries × Option GoError) × World :=
  let got := GetAllCountries w
  let allCountriesArr := got.1.1
  let allCountriesError := got.1.2
  let w := got.2
  if allCountriesError ≠ none then ((Countries.zero, allCountriesError), w)
  else
    let allCountries := sortSlice less allCountriesArr.Data
    (({ Data := allCountries }, none), w)

/-- The function `SortByCases` of `stats.go`. -/
def SortByCases (sortSlice : (Country → Country → Bool) → List Country → List Country)
    (w : World) : (Countries × Option GoError) × World :=
  sortCountriesBy sortSlice lessCases w

/-- The function `SortByDeaths` of `stats.go`. -/
def SortByDeaths (sortSlice : (Country → Country → Bool) → List Country → List Country)
    (w : World) : (Countries × Option GoError) × World :=
  sortCountriesBy sortSlice lessDeaths w

/-- The function `SortByTodayCases` of `stats.go`. -/
def SortByTodayCases (sortSlice : (Country → Country → Bool) → List Country → List Country)
    (w : World) : (Countries × Option GoError) × World :=
  sortCountriesBy sortSlice lessTodayCases w

/-- The function `SortByTodayDeaths` of `stats.go`. -/
def SortByTodayDeaths (sortSlice : (Country → Country → Bool) → List Country → List Country)
    (w : World) : (Countries × Option GoError) × World :=
  sortCountriesBy sortSlice lessTodayDeaths w

/-- The function `SortByRecovered` of `stats.go`. -/
def SortByRecovered (sortSlice : (Country → Country → Bool) → List Country → List Country)
    (w : World) : (Countries × Option GoError) × World :=
  sortCountriesBy sortSlice lessRecovered w

/-- The function `SortByActive` of `stats.go`. -/
def SortByActive (sortSlice : (Country → Country → Bool) → List Country → List Country)
    (w : World) : (Countries × Option GoError) × World :=
  sortCountriesBy sortSlice lessActive w

/-- The function `SortByCritical` of `stats.go`. -/
def SortByCritical (sortSlice : (Country → Country → Bool) → List Country → List Country)
    (w : World) : (Countries × Option GoError) × World :=
  sortCountriesBy sortSlice lessCritical w

/-- The function `SortByCasesPerOneMillion` of `stats.go`. -/
def SortByCasesPerOneMillion
    (sortSlice : (Country → Country → Bool) → List Country → List Country)
    (w : World) : (Countries × Option GoError) × World :=
  sortCountriesBy sortSlice lessCasesPerOneMillion w

/-! ## The sort controller (package `sortcon`) -/

/-- The type `SortRequest` of `sort.go`: the field `Type` of the request body, the empty
string when the body does not carry it. -/
structure SortRequest where
  sortType : String
deriving DecidableEq, Repr

/-- The HTTP request as `perform` observes it: the error of `ioutil.ReadAll(r.Body)`,
the error of `json.Unmarshal(b, &sortRequest)` and the decoded request. -/
structure SortHTTPRequest where
  readAllError : Option GoError
  unmarshalError : Option GoError
  sortRequest : SortRequest
deriving DecidableEq, Repr

/-- The body of a response of `perform`: the JSON of a dataset, or the error response
that `merror.SimpeErrorResponseWithStatus` builds from a status and an error. -/
inductive ResponseBody where
  | countries (data : Countries)
  | errorMessage (status : Nat) (err : GoError)
deriving DecidableEq, Repr

/-- The end every case of the `switch` of `perform` shares: an error of the call answers
status 500 with the error, otherwise the dataset is marshalled and answered with status
200. -/
def sortResponse (res : (Countries × Option GoError) × World) : (ResponseBody × Nat) × World :=
  match res.1.2 with
  | some countriesError => ((ResponseBody.errorMessage 500 countriesError, 500), res.2)
  | none => ((ResponseBody.countries res.1.1, 200), res.2)

/-- The function `perform` of `sort.go`; the calls of the logger are left out. -/
def perform (sortSlice : (Country → Country → Bool) → List Country → List Country)
    (r : SortHTTPRequest) (w : World) : (ResponseBody × Nat) × World :=
  match r.readAllError with
  | some errIoutilReadAll => ((ResponseBody.errorMessage 400 errIoutilReadAll, 400), w)
  | none =>
    match r.unmarshalError with
    | some unmarshallError => ((ResponseBody.errorMessage 400 unmarshallError, 400), w)
    | none =>
      let sortType := r.sortRequest.sortType
      if sortType = "deaths" then sortResponse (SortByDeaths sortSlice w)
      else if sortType = "cases" then sortResponse (SortByCases sortSlice w)
      else if sortType = "todayCases" then sortResponse (SortByTodayCases sortSlice w)
      else if sortType = "todayDeaths" then sortResponse (SortByTodayDeaths sortSlice w)
      else if sortType = "recovered" then sortResponse (SortByRecovered sortSlice w)
      else if sortType = "active" then sortResponse (SortByActive sortSlice w)
      else if sortType = "critical" then sortResponse (SortByCritical sortSlice w)
      else if sortType = "casesPerOneMillion" then
        sortResponse (SortByCasesPerOneMillion sortSlice w)
      else sortResponse (GetAllCountries w)

/-! ## Continent data (package `continent`) -/

/-- Modelled from the spec: a record of `mcontinent.Response` (package
`lib/model/continent` is not among the sources); `continent_test.go` reads its field
`Cases`. -/
structure ContinentRecord where
  Cases : Int
deriving DecidableEq, Repr

/-- Modelled from the spec: the function `GetContinentData` of package `continent`
(`continent.go` is not among the sources, only `continent_test.go` is).  It follows the
cache-aside rule of the dataset accessor over the two collaborators the test replaces,
`reqCacheOB.getCacheData()` and `reqDataOB.requestContinentData()`, given here by what
they return: a failing cache lookup is returned; a non-empty cached response is returned
as it is; otherwise the upstream response is returned, or its error. -/
def GetContinentData (getCacheData requestContinentData : List ContinentRecord × Option GoError) :
    List ContinentRecord × Option GoError :=
  let cachedData := getCacheData.1
  let cachedDataError := getCacheData.2
  if cachedDataError ≠ none then ([], cachedDataError)
  else if cachedData.length = 0 then
    let response := requestContinentData.1
    let responseError := requestContinentData.2
    if responseError ≠ none then ([], responseError)
    else (response, none)
  else (cachedData, none)

/-! ## Concrete datasets used to evaluate the sorts -/

/-- Seven records, in upstream order, of which A and B have the same `todayCases`. -/
def sevenRecords : List Country :=
  [mkCountry "A" 0 5 0 0, mkCountry "B" 0 5 0 0, mkCountry "C" 0 1 0 0,
    mkCountry "D" 0 1 0 0, mkCountry "E" 0 1 0 0, mkCountry "F" 0 1 0 0,
    mkCountry "G" 0 9 0 0]

/-- A world whose cache is empty and whose cache writes fail, with the upstream `u`. -/
def coldWorldNoWrite (u : Upstream) : World :=
  { store := [], getFault := none, setFault := some { msg := "write: broken pipe" },
    upstream := u, trace := [] }

/-! ## The comparison engine (package `curve`) and its controller (package `compare`) -/

/-- Modelled from the spec: one side of a comparison, the country name and its series
(`country` and `data` in the JSON of the response; package `lib/structs` is not among the
sources). -/
structure CompareCountry where
  Country : String
  Data : List Int
deriving DecidableEq, Repr

/-- Modelled from the spec: the type `structs.Compare` that the comparison functions
return, the two sides `countryOne` and `countryTwo`. -/
structure Compare where
  CountryOne : CompareCountry
  CountryTwo : CompareCountry
deriving DecidableEq, Repr

/-- Modelled from the spec: the per-day delta of a cumulative series (package `lib/curve`
is not among the sources).  A series shorter than two entries is returned as it is (the
guard before differencing); otherwise the entry of index 0 is kept and the entry of each
index `i > 0` is `series[i] - series[i-1]` in Go's `int`.  An index out of range, a
run-time panic in Go, is `none`. -/
def perDayDeltas (series : List Int) : Option (List Int) :=
  if series.length < 2 then some series
  else
    (List.range series.length).mapM (fun i =>
      if i = 0 then series[0]?
      else
        match series[i]?, series[i - 1]? with
        | some cur, some prev => some (wrapInt64 (cur - prev))
        | _, _ => none)

/-- Modelled from the spec: the from-first-event trim of a cumulative series (package
`lib/curve` is not among the sources): the entries before the first non-zero entry are
dropped. -/
def fromFirstEvent (series : List Int) : List Int :=
  series.dropWhile (fun v => v == 0)

/-- Modelled from the spec: `curve.ComparePerDayDeathsCountries` (package `lib/curve` is
not among the sources).  Each name is resolved on its own against the historical series
source `deathsSeries`, which answers the empty series for an unknown country, and each
series is turned into its per-day deltas. -/
def ComparePerDayDeathsCountries (deathsSeries : String → List Int)
    (nameOne nameTwo : String) : Option Compare :=
  match perDayDeltas (deathsSeries nameOne), perDayDeltas (deathsSeries nameTwo) with
  | some dataOne, some dataTwo =>
    some { CountryOne := { Country := nameOne, Data := dataOne },
           CountryTwo := { Country := nameTwo, Data := dataTwo } }
  | _, _ => none

/-- Modelled from the spec: `curve.CompareDeathsFromFirstDeathCountries` (package
`lib/curve` is not among the sources).  Each name is resolved on its own against the
historical series source `deathsSeries`, and each series is trimmed on its own to start
at its first non-zero entry. -/
def CompareDeathsFromFirstDeathCountries (deathsSeries : String → List Int)
    (nameOne nameTwo : String) : Compare :=
  { CountryOne := { Country := nameOne, Data := fromFirstEvent (deathsSeries nameOne) },
    CountryTwo := { Country := nameTwo, Data := fromFirstEvent (deathsSeries nameTwo) } }

/-- The type `CompareRequest` of `compare.go`. -/
structure CompareRequest where
  NameOne : String
  NameTwo : String
deriving DecidableEq, Repr

/-- The HTTP request as the functions of `compare.go` observe it: the error of
`ioutil.ReadAll(r.Body)` and the contents of `compareRequest` after
`json.Unmarshal(b, &compareRequest)`, whose error the source does not look at. -/
structure CompareHTTPRequest where
  readAllError : Option GoError
  compareRequest : CompareRequest
deriving DecidableEq, Repr

/-- The body of a response of the functions of `compare.go`: the JSON of a `Compare`, or
the JSON of a `structs.ErrorMessage`. -/
inductive CompareResponseBody where
  | compare (data : Compare)
  | errorMessage (message : String) (code : Nat)
deriving DecidableEq, Repr

/-- The function `PerformFromFirstDeath` of `compare.go`; marshalling a `Compare` does
not fail. -/
def PerformFromFirstDeath (deathsSeries : String → List Int) (r : CompareHTTPRequest) :
    CompareResponseBody × Nat :=
  match r.readAllError with
  | some errIoutilReadAll => (CompareResponseBody.errorMessage errIoutilReadAll.msg 500, 500)
  | none =>
    let compareRequest := r.compareRequest
    let country := CompareDeathsFromFirstDeathCountries deathsSeries
      compareRequest.NameOne compareRequest.NameTwo
    (CompareResponseBody.compare country, 200)

/-- The function `PerformPerDayDeath` of `compare.go`; marshalling a `Compare` does not
fail, and `none` is a run-time panic of the call of `curve.ComparePerDayDeathsCountries`. -/
def PerformPerDayDeath (deathsSeries : String → List Int) (r : CompareHTTPRequest) :
    Option (CompareResponseBody × Nat) :=
  match r.readAllError with
  | some errIoutilReadAll =>
    some (CompareResponseBody.errorMessage errIoutilReadAll.msg 500, 500)
  | none =>
    let compareRequest := r.compareRequest
    match ComparePerDayDeathsCountries deathsSeries
        compareRequest.NameOne compareRequest.NameTwo with
    | none => none
    | some country => some (CompareResponseBody.compare country, 200)

/-- A historical series source that knows Italy, Spain and Greece and answers the empty
series for every other name. -/
def exampleDeaths (name : String) : List Int :=
  if name = "Italy" then [1, 3, 6]
  else if name = "Spain" then [0, 0, 5, 9]
  else if name = "Greece" then [0, 3, 4, 6]
  else []

/-! ## Arithmetic of Go integers -/

theorem wrapInt64_lower (i : Int) : -2 ^ 63 ≤ wrapInt64 i := by
  unfold wrapInt64; omega

theorem wrapInt64_upper (i : Int) : wrapInt64 i < 2 ^ 63 := by
  unfold wrapInt64; omega

theorem wrapInt64_of_inRange (i : Int) (hlo : -2 ^ 63 ≤ i) (hhi : i < 2 ^ 63) :
    wrapInt64 i = i := by
  unfold wrapInt64; omega

theorem wrapInt64_idem (i : Int) : wrapInt64 (wrapInt64 i) = wrapInt64 i :=
  wrapInt64_of_inRange _ (wrapInt64_lower i) (wrapInt64_upper i)

theorem wrapInt64_add_left (a b : Int) : wrapInt64 (wrapInt64 a + b) = wrapInt64 (a + b) := by
  unfold wrapInt64; omega

/-- A quotient truncated toward zero by a positive divisor stays in the range of its
dividend. -/
theorem tdiv_inRange (x c : Int) (hc : 0 < c) (hlo : -2 ^ 63 ≤ x) (hhi : x < 2 ^ 63) :
    -2 ^ 63 ≤ Int.tdiv x c ∧ Int.tdiv x c < 2 ^ 63 := by
  rcases Int.lt_or_le x 0 with hneg | hpos
  · have hx : x = -(-x) := by omega
    have h1 : Int.tdiv x c = -((-x) / c) := by
      rw [hx, Int.neg_tdiv, Int.tdiv_eq_ediv (by omega) (by omega)]
      simp
    have h2 : 0 ≤ (-x) / c := Int.ediv_nonneg (by omega) (by omega)
    have h3 : (-x) / c ≤ -x := Int.ediv_le_self _ (by omega)
    omega
  · have h1 : Int.tdiv x c = x / c := Int.tdiv_eq_ediv hpos (by omega)
    have h2 : 0 ≤ x / c := Int.ediv_nonneg hpos (by omega)
    have h3 : x / c ≤ x := Int.ediv_le_self _ hpos
    omega

/-- Go's division by a positive divisor: no panic, and the truncated quotient of the
(wrapped) product is the result. -/
theorem goDiv_goMul_pos (a c : Int) (hc : 0 < c) :
    goDiv (goMul a 100) c = some (Int.tdiv (wrapInt64 (a * 100)) c) := by
  have hr := tdiv_inRange (wrapInt64 (a * 100)) c hc (wrapInt64_lower _) (wrapInt64_upper _)
  have hne : c ≠ 0 := by omega
  simp only [goDiv, goMul, hne, if_false]
  rw [wrapInt64_of_inRange _ hr.1 hr.2]

theorem goDiv_zero (a : Int) : goDiv a 0 = none := by
  simp [goDiv]

theorem goDiv_ne_zero (a c : Int) (hc : c ≠ 0) :
    goDiv a c = some (wrapInt64 (Int.tdiv a c)) := by
  simp [goDiv, hc]

/-! ## The loop of `GetTotalStats` -/

/-- The loop of `GetTotalStats`, started from totals in the range of `int`, ends with the
wrapped sums, over the records not named "World", added to the starting totals. -/
theorem foldl_totalsStep (ds : List Country) (acc : Totals)
    (hd : wrapInt64 acc.totalDeaths = acc.totalDeaths)
    (hc : wrapInt64 acc.totalCases = acc.totalCases)
    (htd : wrapInt64 acc.todayTotalDeaths = acc.todayTotalDeaths)
    (htc : wrapInt64 acc.todayTotalCases = acc.todayTotalCases) :
    ds.foldl totalsStep acc =
      { totalDeaths := wrapInt64 (acc.totalDeaths +
          ((ds.filter (fun v => v.Country ≠ "World")).map (fun v => v.Deaths)).sum),
        totalCases := wrapInt64 (acc.totalCases +
          ((ds.filter (fun v => v.Country ≠ "World")).map (fun v => v.Cases)).sum),
        todayTotalDeaths := wrapInt64 (acc.todayTotalDeaths +
          ((ds.filter (fun v => v.Country ≠ "World")).map (fun v => v.TodayDeaths)).sum),
        todayTotalCases := wrapInt64 (acc.todayTotalCases +
          ((ds.filter (fun v => v.Country ≠ "World")).map (fun v => v.TodayCases)).sum) } := by
  induction ds generalizing acc with
  | nil =>
    cases acc
    simp_all
  | cons v rest ih =>
    by_cases hw : v.Country = "World"
    · have hstep : totalsStep acc v = acc := by simp [totalsStep, hw]
      rw [List.foldl_cons, hstep, ih acc hd hc htd htc]
      simp [hw]
    · have hstep : totalsStep acc v =
          { totalDeaths := goAdd acc.totalDeaths v.Deaths,
            totalCases := goAdd acc.totalCases v.Cases,
            todayTotalDeaths := goAdd acc.todayTotalDeaths v.TodayDeaths,
            todayTotalCases := goAdd acc.todayTotalCases v.TodayCases } := by
        simp [totalsStep, hw]
      rw [List.foldl_cons, hstep, ih _ (wrapInt64_idem _) (wrapInt64_idem _)
        (wrapInt64_idem _) (wrapInt64_idem _)]
      simp only [goAdd, wrapInt64_add_left]
      simp [hw, add_assoc]

/-- The totals the loop of `GetTotalStats` computes from zero. -/
theorem foldl_totalsStep_zero (ds : List Country) :
    ds.foldl totalsStep
        { totalDeaths := 0, totalCases := 0, todayTotalDeaths := 0, todayTotalCases := 0 } =
      { totalDeaths :=
          wrapInt64 ((ds.filter (fun v => v.Country ≠ "World")).map (fun v => v.Deaths)).sum,
        totalCases :=
          wrapInt64 ((ds.filter (fun v => v.Country ≠ "World")).map (fun v => v.Cases)).sum,
        todayTotalDeaths :=
          wrapInt64 ((ds.filter (fun v => v.Country ≠ "World")).map (fun v => v.TodayDeaths)).sum,
        todayTotalCases :=
          wrapInt64 ((ds.filter (fun v => v.Country ≠ "World")).map (fun v => v.TodayCases)).sum } := by
  rw [foldl_totalsStep ds _ (by decide) (by decide) (by decide) (by decide)]
  simp

/-! ## Aggregate statistics -/

/-- C1: at the dataset [{X, cases=7, todayCases=1, deaths=2, todayDeaths=1}], whose case
and death totals are non-zero, `GetTotalStats` returns `TodayPerCentOfTotalCases` = 50,
the percentage of the deaths, and `TodayPerCentOfTotalDeaths` = 14, the percentage of
the cases; the truncated quotients of the claim are 1*100/7 = 14 for the cases and
1*100/2 = 50 for the deaths. -/
theorem GetTotalStats_percentages_swapped :
    (GetAllCountries (warmWorld [mkCountry "X" 7 1 2 1] [])).1 =
        ({ Data := [mkCountry "X" 7 1 2 1] }, none) ∧
      (GetTotalStats (warmWorld [mkCountry "X" 7 1 2 1] [])).1 =
        GoResult.returned
          { TodayPerCentOfTotalCases := 50, TodayPerCentOfTotalDeaths := 14,
            TotalCases := 7, TotalDeaths := 2, TodayTotalCases := 1,
            TodayTotalDeaths := 1 } none ∧
      Int.tdiv (1 * 100) 7 = 14 ∧ Int.tdiv (1 * 100) 2 = 50 := by
  decide

/-- C2, as stated, fails: at the dataset [{World, cases=100, deaths=10}], whose totals
over the records not named "World" are zero, `GetTotalStats` returns no result at all. -/
theorem GetTotalStats_world_only_returns_nothing :
    (GetAllCountries (warmWorld [mkCountry "World" 100 5 10 1] [])).1 =
        ({ Data := [mkCountry "World" 100 5 10 1] }, none) ∧
      ¬ ∃ t e, (GetTotalStats (warmWorld [mkCountry "World" 100 5 10 1] [])).1 =
        GoResult.returned t e := by
  refine ⟨by decide, ?_⟩
  rintro ⟨t, e, h⟩
  have hp : (GetTotalStats (warmWorld [mkCountry "World" 100 5 10 1] [])).1 =
      GoResult.panicked RuntimePanic.integerDivideByZero := by decide
  rw [hp] at h
  cases h

/-- C2, amended: for every dataset returned by `GetAllCountries` whose totals of cases
and of deaths over the records not named "World" are both non-zero, `GetTotalStats`
returns, with a nil error, `TotalCases`, `TotalDeaths`, `TodayTotalCases` and
`TodayTotalDeaths` equal to the sums (in Go's 64-bit `int`) of cases, deaths, todayCases
and todayDeaths over exactly the records whose name is not "World". -/
theorem GetTotalStats_totals (w : World) (ds : List Country)
    (hAll : (GetAllCountries w).1 = ({ Data := ds }, none))
    (hCases :
      wrapInt64 ((ds.filter (fun v => v.Country ≠ "World")).map (fun v => v.Cases)).sum ≠ 0)
    (hDeaths :
      wrapInt64 ((ds.filter (fun v => v.Country ≠ "World")).map (fun v => v.Deaths)).sum ≠ 0) :
    ∃ t, (GetTotalStats w).1 = GoResult.returned t none ∧
      t.TotalCases =
        wrapInt64 ((ds.filter (fun v => v.Country ≠ "World")).map (fun v => v.Cases)).sum ∧
      t.TotalDeaths =
        wrapInt64 ((ds.filter (fun v => v.Country ≠ "World")).map (fun v => v.Deaths)).sum ∧
      t.TodayTotalCases =
        wrapInt64 ((ds.filter (fun v => v.Country ≠ "World")).map (fun v => v.TodayCases)).sum ∧
      t.TodayTotalDeaths =
        wrapInt64
          ((ds.filter (fun v => v.Country ≠ "World")).map (fun v => v.TodayDeaths)).sum := by
  have h1 : (GetAllCountries w).1.1 = { Data := ds } := by rw [hAll]
  have h2 : (GetAllCountries w).1.2 = none := by rw [hAll]
  simp only [GetTotalStats, h1, h2, ne_eq, not_true_eq_false, if_false,
    foldl_totalsStep_zero, goDiv_ne_zero _ _ hCases, goDiv_ne_zero _ _ hDeaths]
  exact ⟨_, rfl, rfl, rfl, rfl, rfl⟩

/-- C2, amended, at the dataset [{World, cases=100}, {X, cases=40}, {Y, cases=60}] (each
with deaths): the hypotheses hold and `TotalCases` is 100. -/
theorem GetTotalStats_totals_witness :
    ∃ t, (GetTotalStats (warmWorld
        [mkCountry "World" 100 5 10 1, mkCountry "X" 40 2 4 1, mkCountry "Y" 60 3 6 0] [])).1 =
          GoResult.returned t none ∧
      t.TotalCases = 100 ∧ t.TotalDeaths = 10 ∧ t.TodayTotalCases = 5 ∧
      t.TodayTotalDeaths = 1 := by
  obtain ⟨t, h, h1, h2, h3, h4⟩ := GetTotalStats_totals
    (warmWorld
      [mkCountry "World" 100 5 10 1, mkCountry "X" 40 2 4 1, mkCountry "Y" 60 3 6 0] [])
    [mkCountry "World" 100 5 10 1, mkCountry "X" 40 2 4 1, mkCountry "Y" 60 3 6 0]
    (by decide) (by decide) (by decide)
  exact ⟨t, h, h1.trans (by decide), h2.trans (by decide), h3.trans (by decide),
    h4.trans (by decide)⟩

/-- C3: at the empty dataset (a cold cache and an upstream that answers no record), whose
totals are zero, `GetTotalStats` does not return an error: the division by the zero total
of deaths panics. -/
theorem GetTotalStats_zero_total_panics :
    (GetAllCountries (coldWorld (upstreamOk []))).1 = ({ Data := [] }, none) ∧
      (GetTotalStats (coldWorld (upstreamOk []))).1 =
        GoResult.panicked RuntimePanic.integerDivideByZero := by
  decide

/-! ## Country lookup and per-country percentages -/

/-- The scan of `GetCountry` stops at the first record named `name`. -/
theorem find_first_named (pre post : List Country) (c : Country) (name : String)
    (hpre : ∀ x ∈ pre, x.Country ≠ name) (hc : c.Country = name) :
    (pre ++ c :: post).find? (fun v => v.Country = name) = some c := by
  induction pre with
  | nil => simp [hc]
  | cons x rest ih =>
    have hx : x.Country ≠ name := hpre x (List.mem_cons_self x rest)
    have hrest : ∀ y ∈ rest, y.Country ≠ name :=
      fun y hy => hpre y (List.mem_cons_of_mem x hy)
    simp [hx, ih hrest]

/-- The scan of `GetCountry` finds nothing when no record is named `name`. -/
theorem find_none_named (ds : List Country) (name : String)
    (hds : ∀ x ∈ ds, x.Country ≠ name) :
    ds.find? (fun v => v.Country = name) = none := by
  simp only [List.find?_eq_none, decide_eq_true_eq]
  exact hds

/-- C4: for every dataset returned by `GetAllCountries` and every name whose record `c`
(the first record of the dataset with that name) has cases > 0 and deaths > 0,
`PercentancePerCountry name` returns, with a nil error, the `CountryStats` whose
`Country` is that name, whose `TodayPerCentOfTotalCases` is todayCases * 100 / cases and
whose `TodayPerCentOfTotalDeaths` is todayDeaths * 100 / deaths, the products taken in
Go's 64-bit `int` and the quotients truncated toward zero. -/
theorem PercentancePerCountry_percentages (w : World) (pre post : List Country)
    (c : Country) (name : String)
    (hAll : (GetAllCountries w).1 = ({ Data := pre ++ c :: post }, none))
    (hpre : ∀ x ∈ pre, x.Country ≠ name) (hname : c.Country = name)
    (hCases : 0 < c.Cases) (hDeaths : 0 < c.Deaths) :
    (PercentancePerCountry name w).1 =
      GoResult.returned
        { Country := name,
          TodayPerCentOfTotalCases := Int.tdiv (wrapInt64 (c.TodayCases * 100)) c.Cases,
          TodayPerCentOfTotalDeaths := Int.tdiv (wrapInt64 (c.TodayDeaths * 100)) c.Deaths }
        none := by
  have h1 : (GetAllCountries w).1.1 = { Data := pre ++ c :: post } := by rw [hAll]
  have h2 : (GetAllCountries w).1.2 = none := by rw [hAll]
  simp only [PercentancePerCountry, GetCountry, h1, h2, ne_eq, not_true_eq_false, if_false,
    find_first_named pre post c name hpre hname, goDiv_goMul_pos _ _ hCases,
    goDiv_goMul_pos _ _ hDeaths, hname]

/-- C4 at a record with cases=7, todayCases=1, deaths=2, todayDeaths=1: the percentages
are 14 (1*100/7 truncated) and 50. -/
theorem PercentancePerCountry_percentages_witness :
    (PercentancePerCountry "Greece"
        (warmWorld [mkCountry "Italy" 9 3 3 1, mkCountry "Greece" 7 1 2 1] [])).1 =
      GoResult.returned
        { Country := "Greece", TodayPerCentOfTotalCases := 14,
          TodayPerCentOfTotalDeaths := 50 } none :=
  PercentancePerCountry_percentages
    (warmWorld [mkCountry "Italy" 9 3 3 1, mkCountry "Greece" 7 1 2 1] [])
    [mkCountry "Italy" 9 3 3 1] [] (mkCountry "Greece" 7 1 2 1) "Greece"
    (by decide) (by decide) (by decide) (by decide) (by decide)

/-- C5: at the dataset [{Greece, cases=7, deaths=2}] and the absent name "Atlantis",
`GetCountry` yields the zero-value record with a nil error and `PercentancePerCountry`
does not return an error: the division by the zero `Cases` panics. -/
theorem PercentancePerCountry_absent_name_panics :
    (GetCountry "Atlantis" (warmWorld [mkCountry "Greece" 7 1 2 1] [])).1 =
        (Country.zero, none) ∧
      (PercentancePerCountry "Atlantis" (warmWorld [mkCountry "Greece" 7 1 2 1] [])).1 =
        GoResult.panicked RuntimePanic.integerDivideByZero := by
  decide

/-! ## The dataset accessor -/

/-- What `caching.Get` returns does not depend on the calls made before it. -/
theorem caching_Get_record (w : World) (ev : Event) (key : String) :
    (caching.Get (w.record ev) key).1 = (caching.Get w key).1 := by
  simp only [caching.Get, World.record]
  cases w.getFault with
  | some e => rfl
  | none =>
    cases w.store.lookup key with
    | none => rfl
    | some p => cases p <;> rfl

/-- The lookup `caching.Get` leaves the world as it was, but for the call it records. -/
theorem caching_Get_world (w : World) (key : String) :
    (caching.Get w key).2 = w.record (Event.cacheGet key) := by
  simp only [caching.Get, World.record]
  cases w.getFault with
  | some e => rfl
  | none =>
    cases w.store.lookup key with
    | none => rfl
    | some p => cases p <;> rfl

/-- What `requestData` returns does not depend on the calls made before it. -/
theorem requestData_record (w : World) (ev : Event) :
    (requestData (w.record ev)).1 = (requestData w).1 := by
  simp only [requestData, World.record]
  split_ifs <;> rfl

/-- The function `requestData` leaves the world as it was, but for the call it records. -/
theorem requestData_world (w : World) :
    (requestData w).2 = w.record Event.requestData := by
  simp only [requestData]
  split_ifs <;> rfl

/-- The path of `GetAllCountries` on which the cache lookup returns an error. -/
theorem GetAllCountries_of_lookup_error (w : World) (e : GoError)
    (hGet : (caching.Get w "total").1.2 = some e) :
    GetAllCountries w =
      ((Countries.zero, some e),
        (((w.record Event.connGet).record (Event.cacheGet "total")).record Event.connClose)) := by
  simp only [GetAllCountries, caching_Get_record, caching_Get_world, hGet, ne_eq,
    not_false_eq_true, if_true, reduceCtorEq]

/-- The path of `GetAllCountries` on which the cache lookup returns a non-empty dataset. -/
theorem GetAllCountries_of_hit (w : World) (d : Countries)
    (hGet : (caching.Get w "total").1 = (d, none)) (hNonEmpty : d.Data ≠ []) :
    GetAllCountries w =
      ((d, none),
        (((w.record Event.connGet).record (Event.cacheGet "total")).record Event.connClose)) := by
  have hlen : ¬ d.Data.length = 0 := fun h => hNonEmpty (List.length_eq_zero.mp h)
  simp only [GetAllCountries, caching_Get_record, caching_Get_world, hGet, ne_eq,
    not_true_eq_false, if_false, hlen]

/-- The path of `GetAllCountries` on which the cache lookup returns an empty dataset and
`requestData` returns an error. -/
theorem GetAllCountries_of_miss_error (w : World) (d : Countries) (e : GoError)
    (hGet : (caching.Get w "total").1 = (d, none)) (hEmpty : d.Data = [])
    (hUp : (requestData w).1.2 = some e) :
    GetAllCountries w =
      ((Countries.zero, some e),
        ((((w.record Event.connGet).record (Event.cacheGet "total")).record
          Event.requestData).record Event.connClose)) := by
  have hlen : d.Data.length = 0 := by rw [hEmpty]; rfl
  simp only [GetAllCountries, caching_Get_record, caching_Get_world, requestData_record,
    requestData_world, hGet, hUp, ne_eq, not_true_eq_false, not_false_eq_true, if_false,
    if_true, hlen, reduceCtorEq]

/-- The path of `GetAllCountries` on which the cache lookup returns an empty dataset and
`requestData` returns the records `R` with a nil error. -/
theorem GetAllCountries_of_miss_fetch (w : World) (d : Countries) (R : List Country)
    (hGet : (caching.Get w "total").1 = (d, none)) (hEmpty : d.Data = [])
    (hUp : (requestData w).1 = (R, none)) :
    GetAllCountries w =
      (({ Data := R }, none),
        ((caching.Set
          (((w.record Event.connGet).record (Event.cacheGet "total")).record Event.requestData)
          { Data := R } "total").2.record Event.connClose)) := by
  have hlen : d.Data.length = 0 := by rw [hEmpty]; rfl
  simp only [GetAllCountries, caching_Get_record, caching_Get_world, requestData_record,
    requestData_world, hGet, hUp, ne_eq, not_true_eq_false, if_false, if_true, hlen]

/-- The lookup of a key that holds a dataset, without transport fault, returns it. -/
theorem caching_Get_snapshot (w : World) (key : String) (d : Countries)
    (hFault : w.getFault = none) (hHolds : w.store.lookup key = some (Payload.snapshot d)) :
    (caching.Get w key).1 = (d, none) := by
  simp [caching.Get, World.record, hFault, hHolds]

/-- The lookup of an absent key, without transport fault, returns the empty dataset. -/
theorem caching_Get_absent (w : World) (key : String)
    (hFault : w.getFault = none) (hAbsent : w.store.lookup key = none) :
    (caching.Get w key).1 = (Countries.zero, none) := by
  simp [caching.Get, World.record, hFault, hAbsent]

/-- C6: for every cache state in which the key "total" holds a non-empty dataset (and the
lookup suffers no transport fault), `GetAllCountries` returns exactly that dataset with
a nil error; the calls it makes are the acquisition of the connection, the lookup and the
release, so `requestData` is not called, and the rest of the world is unchanged. -/
theorem GetAllCountries_cache_hit (w : World) (d : Countries)
    (hFault : w.getFault = none)
    (hHolds : w.store.lookup "total" = some (Payload.snapshot d))
    (hNonEmpty : d.Data ≠ []) :
    (GetAllCountries w).1 = (d, none) ∧
      (GetAllCountries w).2 =
        { w with trace := w.trace ++
            [Event.connGet, Event.cacheGet "total", Event.connClose] } ∧
      upstreamCalls (GetAllCountries w).2.trace = upstreamCalls w.trace := by
  rw [GetAllCountries_of_hit w d (caching_Get_snapshot w "total" d hFault hHolds) hNonEmpty]
  refine ⟨rfl, ?_, ?_⟩
  · simp [World.record]
  · simp [World.record, upstreamCalls, List.count_append]

/-- C6 at a cache holding [{X, cases=7}] and an upstream that would answer another
dataset: the cached dataset is returned and the trace has no call of `requestData`. -/
theorem GetAllCountries_cache_hit_witness :
    (GetAllCountries (warmWorld [mkCountry "X" 7 1 2 1] [mkCountry "Y" 9 9 9 9])).1 =
        ({ Data := [mkCountry "X" 7 1 2 1] }, none) ∧
      upstreamCalls
        (GetAllCountries (warmWorld [mkCountry "X" 7 1 2 1] [mkCountry "Y" 9 9 9 9])).2.trace
          = 0 := by
  have h := GetAllCountries_cache_hit
    (warmWorld [mkCountry "X" 7 1 2 1] [mkCountry "Y" 9 9 9 9])
    { Data := [mkCountry "X" 7 1 2 1] } (by decide) (by decide) (by decide)
  exact ⟨h.1, h.2.2⟩

/-- A cache miss: without transport fault, a key that is absent or holds an empty dataset
is looked up as an empty dataset with a nil error. -/
theorem caching_Get_miss (w : World) (key : String) (hFault : w.getFault = none)
    (hMiss : w.store.lookup key = none ∨
      ∃ d, w.store.lookup key = some (Payload.snapshot d) ∧ d.Data = []) :
    ∃ d, (caching.Get w key).1 = (d, none) ∧ d.Data = [] := by
  rcases hMiss with hAbsent | ⟨d, hHolds, hEmpty⟩
  · exact ⟨Countries.zero, caching_Get_absent w key hFault hAbsent, rfl⟩
  · exact ⟨d, caching_Get_snapshot w key d hFault hHolds, hEmpty⟩

/-- C7: for every cache state in which the key "total" is absent or holds an empty dataset
(the lookup suffering no transport fault) and every successful upstream response `R`,
`GetAllCountries` returns the dataset built from `R` with a nil error; the calls it makes
are, in order, the acquisition of the connection, the lookup, one call of `requestData`,
the write of that dataset under the key "total" and the release; and when the write
suffers no transport fault the cache holds that dataset under "total" on return. -/
theorem GetAllCountries_cache_miss_fetch (w : World) (R : List Country)
    (hFault : w.getFault = none)
    (hMiss : w.store.lookup "total" = none ∨
      ∃ d, w.store.lookup "total" = some (Payload.snapshot d) ∧ d.Data = [])
    (hUp : (requestData w).1 = (R, none)) :
    (GetAllCountries w).1 = ({ Data := R }, none) ∧
      (GetAllCountries w).2.trace = w.trace ++
        [Event.connGet, Event.cacheGet "total", Event.requestData,
          Event.cacheSet "total" { Data := R }, Event.connClose] ∧
      upstreamCalls (GetAllCountries w).2.trace = upstreamCalls w.trace + 1 ∧
      (w.setFault = none →
        (GetAllCountries w).2.store.lookup "total" = some (Payload.snapshot { Data := R })) := by
  obtain ⟨d, hGet, hEmpty⟩ := caching_Get_miss w "total" hFault hMiss
  rw [GetAllCountries_of_miss_fetch w d R hGet hEmpty hUp]
  have htrace : ((caching.Set
      (((w.record Event.connGet).record (Event.cacheGet "total")).record Event.requestData)
      { Data := R } "total").2.record Event.connClose).trace = w.trace ++
        [Event.connGet, Event.cacheGet "total", Event.requestData,
          Event.cacheSet "total" { Data := R }, Event.connClose] := by
    simp only [caching.Set, World.record]
    cases w.setFault <;> simp
  refine ⟨rfl, htrace, ?_, ?_⟩
  · rw [htrace]
    simp [upstreamCalls, List.count_append, List.count_cons]
  · intro hSet
    simp [caching.Set, World.record, hSet, List.lookup]

/-- C7 at a cold cache and an upstream answering [{X, cases=7}]: the fetched dataset is
returned, `requestData` is called once, and the cache holds the dataset on return. -/
theorem GetAllCountries_cache_miss_fetch_witness :
    (GetAllCountries (coldWorld (upstreamOk [mkCountry "X" 7 1 2 1]))).1 =
        ({ Data := [mkCountry "X" 7 1 2 1] }, none) ∧
      upstreamCalls (GetAllCountries (coldWorld (upstreamOk [mkCountry "X" 7 1 2 1]))).2.trace
        = 1 ∧
      (GetAllCountries (coldWorld (upstreamOk [mkCountry "X" 7 1 2 1]))).2.store.lookup "total"
        = some (Payload.snapshot { Data := [mkCountry "X" 7 1 2 1] }) := by
  have h := GetAllCountries_cache_miss_fetch (coldWorld (upstreamOk [mkCountry "X" 7 1 2 1]))
    [mkCountry "X" 7 1 2 1] (by decide) (Or.inl (by decide)) (by decide)
  exact ⟨h.1, h.2.2.1, h.2.2.2 (by decide)⟩

/-- C8, as stated, fails: when the key "total" holds a payload that does not decode, the
lookup fails, and `GetAllCountries` returns that failure with an empty dataset and does
not call `requestData`, although the upstream would answer [{X, cases=7}]. -/
theorem GetAllCountries_corrupt_cache_counterexample :
    (caching.Get (corruptWorld [mkCountry "X" 7 1 2 1]) "total").1.2 = some cacheCorrupt ∧
      (requestData (corruptWorld [mkCountry "X" 7 1 2 1])).1 =
        ([mkCountry "X" 7 1 2 1], none) ∧
      (GetAllCountries (corruptWorld [mkCountry "X" 7 1 2 1])).1 =
        (Countries.zero, some cacheCorrupt) ∧
      upstreamCalls (GetAllCountries (corruptWorld [mkCountry "X" 7 1 2 1])).2.trace = 0 := by
  decide

/-- C8, amended: whenever the cache lookup of the key "total" fails, also because the
cached payload cannot be decoded, `GetAllCountries` returns that failure together with an
empty dataset; it does not call `requestData` and does not write to the cache. -/
theorem GetAllCountries_lookup_error (w : World) (e : GoError)
    (hGet : (caching.Get w "total").1.2 = some e) :
    (GetAllCountries w).1 = (Countries.zero, some e) ∧
      (GetAllCountries w).2.trace = w.trace ++
        [Event.connGet, Event.cacheGet "total", Event.connClose] ∧
      upstreamCalls (GetAllCountries w).2.trace = upstreamCalls w.trace ∧
      (GetAllCountries w).2.store = w.store := by
  rw [GetAllCountries_of_lookup_error w e hGet]
  refine ⟨rfl, ?_, ?_, rfl⟩
  · simp [World.record]
  · simp [World.record, upstreamCalls, List.count_append]

/-- C8, amended, at a cache whose payload under "total" does not decode. -/
theorem GetAllCountries_lookup_error_witness :
    (GetAllCountries (corruptWorld [mkCountry "X" 7 1 2 1])).1 =
        (Countries.zero, some cacheCorrupt) ∧
      (GetAllCountries (corruptWorld [mkCountry "X" 7 1 2 1])).2.trace =
        [Event.connGet, Event.cacheGet "total", Event.connClose] := by
  have h := GetAllCountries_lookup_error (corruptWorld [mkCountry "X" 7 1 2 1]) cacheCorrupt
    (by decide)
  exact ⟨h.1, h.2.1⟩

/-- C9: at an upstream whose body is fetched and read but fails to decode
(`json.Unmarshal` returns an error), `requestData` returns the records decoded so far
with a nil error, and `GetAllCountries`, on a cache miss, returns a dataset with a nil
error and writes it to the cache. -/
theorem requestData_decode_failure_returns_nil_error :
    upstreamBadBody.unmarshalError ≠ none ∧
      (requestData (coldWorld upstreamBadBody)).1 = ([], none) ∧
      (GetAllCountries (coldWorld upstreamBadBody)).1 = ({ Data := [] }, none) ∧
      (GetAllCountries (coldWorld upstreamBadBody)).2.store =
        [("total", Payload.snapshot { Data := [] })] := by
  decide

/-- C10: on a cache miss (the key "total" absent or holding an empty dataset, the lookup
suffering no transport fault), whenever `requestData` returns an error,
`GetAllCountries` returns that same error with an empty dataset; it makes no write to
the cache: its calls are the acquisition of the connection, the lookup, the call of
`requestData` and the release, and the store is unchanged. -/
theorem GetAllCountries_upstream_error (w : World) (e : GoError)
    (hFault : w.getFault = none)
    (hMiss : w.store.lookup "total" = none ∨
      ∃ d, w.store.lookup "total" = some (Payload.snapshot d) ∧ d.Data = [])
    (hUp : (requestData w).1.2 = some e) :
    (GetAllCountries w).1 = (Countries.zero, some e) ∧
      (GetAllCountries w).2.trace = w.trace ++
        [Event.connGet, Event.cacheGet "total", Event.requestData, Event.connClose] ∧
      (GetAllCountries w).2.store = w.store := by
  obtain ⟨d, hGet, hEmpty⟩ := caching_Get_miss w "total" hFault hMiss
  rw [GetAllCountries_of_miss_error w d e hGet hEmpty hUp]
  refine ⟨rfl, ?_, rfl⟩
  simp [World.record]

/-- C10 at a cold cache and an upstream whose HTTP request fails. -/
theorem GetAllCountries_upstream_error_witness :
    (GetAllCountries (coldWorld upstreamDown)).1 =
        (Countries.zero, some { msg := "connection refused" }) ∧
      (GetAllCountries (coldWorld upstreamDown)).2.trace =
        [Event.connGet, Event.cacheGet "total", Event.requestData, Event.connClose] ∧
      (GetAllCountries (coldWorld upstreamDown)).2.store = [] := by
  have h := GetAllCountries_upstream_error (coldWorld upstreamDown)
    { msg := "connection refused" } (by decide) (Or.inl (by decide)) (by decide)
  exact h

/-- C11: on a cache miss (the key "total" absent or holding an empty dataset, the lookup
suffering no transport fault) with `requestData` returning the records `R` and a nil
error, `GetAllCountries` returns the dataset built from `R` with a nil error whatever
the fault `fault` of the cache write is, none or an error: the result of `caching.Set`
does not reach the returned values. -/
theorem GetAllCountries_ignores_write_failure (w : World) (R : List Country)
    (fault : Option GoError)
    (hFault : w.getFault = none)
    (hMiss : w.store.lookup "total" = none ∨
      ∃ d, w.store.lookup "total" = some (Payload.snapshot d) ∧ d.Data = [])
    (hUp : (requestData w).1 = (R, none)) :
    (GetAllCountries { w with setFault := fault }).1 = ({ Data := R }, none) ∧
      (caching.Set { w with setFault := fault } { Data := R } "total").1 = fault := by
  have hGet := caching_Get_miss { w with setFault := fault } "total" hFault hMiss
  obtain ⟨d, hGet, hEmpty⟩ := hGet
  have hUp2 : (requestData { w with setFault := fault }).1 = (R, none) := by
    rw [← hUp]
    simp only [requestData, World.record]
    split_ifs <;> rfl
  refine ⟨?_, ?_⟩
  · rw [GetAllCountries_of_miss_fetch _ d R hGet hEmpty hUp2]
  · simp only [caching.Set, World.record]
    cases fault <;> rfl

/-- C11 at a cold cache whose writes fail and an upstream answering [{X, cases=7}]: the
write returns an error, nothing is stored, and the fetched dataset is returned with a nil
error. -/
theorem GetAllCountries_ignores_write_failure_witness :
    (GetAllCountries (coldWorldNoWrite (upstreamOk [mkCountry "X" 7 1 2 1]))).1 =
        ({ Data := [mkCountry "X" 7 1 2 1] }, none) ∧
      (caching.Set (coldWorldNoWrite (upstreamOk [mkCountry "X" 7 1 2 1]))
        { Data := [mkCountry "X" 7 1 2 1] } "total").1 =
          some { msg := "write: broken pipe" } :=
  GetAllCountries_ignores_write_failure
    (coldWorld (upstreamOk [mkCountry "X" 7 1 2 1])) [mkCountry "X" 7 1 2 1]
    (some { msg := "write: broken pipe" }) (by decide) (Or.inl (by decide)) (by decide)

/-- C12: at a cold cache and an upstream whose HTTP request fails, `GetAllCountries`
fails with the error of the request, while `GetTotalStats` returns the zero-value
`TotalStats` with a nil error and `PercentancePerCountry` the zero-value `CountryStats`
with a nil error. -/
theorem stats_swallow_dataset_error :
    (GetAllCountries (coldWorld upstreamDown)).1.2 = some { msg := "connection refused" } ∧
      (GetTotalStats (coldWorld upstreamDown)).1 = GoResult.returned TotalStats.zero none ∧
      (PercentancePerCountry "Greece" (coldWorld upstreamDown)).1 =
        GoResult.returned CountryStats.zero none := by
  decide

/-- Splitting a dataset at the first record named `name`. -/
theorem exists_first_named (ds : List Country) (name : String)
    (h : ∃ x ∈ ds, x.Country = name) :
    ∃ pre c post, ds = pre ++ c :: post ∧ (∀ x ∈ pre, x.Country ≠ name) ∧
      c.Country = name := by
  induction ds with
  | nil =>
    obtain ⟨x, hx, _⟩ := h
    cases hx
  | cons y rest ih =>
    by_cases hy : y.Country = name
    · exact ⟨[], y, rest, rfl, fun x hx => (by cases hx), hy⟩
    · obtain ⟨x, hx, hxn⟩ := h
      have hmem : x ∈ rest := by
        rcases List.mem_cons.mp hx with hxy | hxr
        · exact absurd (hxy ▸ hxn) hy
        · exact hxr
      obtain ⟨pre, c, post, hsplit, hpre, hc⟩ := ih ⟨x, hmem, hxn⟩
      refine ⟨y :: pre, c, post, by rw [hsplit]; rfl, ?_, hc⟩
      intro z hz
      rcases List.mem_cons.mp hz with hzy | hzp
      · rw [hzy]; exact hy
      · exact hpre z hzp

/-- C13: for every dataset returned by `GetAllCountries` and every name that equals the
country name of none of its records, `GetCountry name` returns the zero-value record
together with a nil error. -/
theorem GetCountry_no_match (w : World) (ds : List Country) (name : String)
    (hAll : (GetAllCountries w).1 = ({ Data := ds }, none))
    (hNone : ∀ x ∈ ds, x.Country ≠ name) :
    (GetCountry name w).1 = (Country.zero, none) := by
  have h1 : (GetAllCountries w).1.1 = { Data := ds } := by rw [hAll]
  have h2 : (GetAllCountries w).1.2 = none := by rw [hAll]
  simp only [GetCountry, h1, h2, ne_eq, not_true_eq_false, if_false,
    find_none_named ds name hNone]

/-- C13 at the dataset [{Greece}, {Italy}] and the name "Atlantis". -/
theorem GetCountry_no_match_witness :
    (GetCountry "Atlantis"
        (warmWorld [mkCountry "Greece" 7 1 2 1, mkCountry "Italy" 9 3 3 1] [])).1 =
      (Country.zero, none) :=
  GetCountry_no_match
    (warmWorld [mkCountry "Greece" 7 1 2 1, mkCountry "Italy" 9 3 3 1] [])
    [mkCountry "Greece" 7 1 2 1, mkCountry "Italy" 9 3 3 1] "Atlantis"
    (by decide) (by decide)

/-- C14: for every dataset returned by `GetAllCountries` and every name that some record
carries, the dataset splits at its first record `c` whose country name is exactly
`name` (no record before `c` has that name, whatever else it has in common with it, the
letters in another case included), and `GetCountry name` returns `c` with a nil error. -/
theorem GetCountry_first_match (w : World) (ds : List Country) (name : String)
    (hAll : (GetAllCountries w).1 = ({ Data := ds }, none))
    (hSome : ∃ x ∈ ds, x.Country = name) :
    ∃ pre c post, ds = pre ++ c :: post ∧ (∀ x ∈ pre, x.Country ≠ name) ∧
      c.Country = name ∧ (GetCountry name w).1 = (c, none) := by
  obtain ⟨pre, c, post, hsplit, hpre, hc⟩ := exists_first_named ds name hSome
  refine ⟨pre, c, post, hsplit, hpre, hc, ?_⟩
  have h1 : (GetAllCountries w).1.1 = { Data := pre ++ c :: post } := by rw [hAll, hsplit]
  have h2 : (GetAllCountries w).1.2 = none := by rw [hAll]
  simp only [GetCountry, h1, h2, ne_eq, not_true_eq_false, if_false,
    find_first_named pre post c name hpre hc]

/-- C14 at the dataset [{greece, cases=1}, {Greece, cases=7}, {Greece, cases=9}] and the
name "Greece": the record named "greece" does not match, and of the two records named
"Greece" the first is returned. -/
theorem GetCountry_first_match_witness :
    (GetCountry "Greece"
        (warmWorld [mkCountry "greece" 1 0 0 0, mkCountry "Greece" 7 1 2 1,
          mkCountry "Greece" 9 3 3 1] [])).1 =
      (mkCountry "Greece" 7 1 2 1, none) := by
  obtain ⟨pre, c, post, _, _, _, h⟩ := GetCountry_first_match
    (warmWorld [mkCountry "greece" 1 0 0 0, mkCountry "Greece" 7 1 2 1,
      mkCountry "Greece" 9 3 3 1] [])
    [mkCountry "greece" 1 0 0 0, mkCountry "Greece" 7 1 2 1, mkCountry "Greece" 9 3 3 1]
    "Greece" (by decide) ⟨mkCountry "Greece" 7 1 2 1, by decide, by decide⟩
  rw [h]
  have hc : (GetCountry "Greece"
      (warmWorld [mkCountry "greece" 1 0 0 0, mkCountry "Greece" 7 1 2 1,
        mkCountry "Greece" 9 3 3 1] [])).1 = (mkCountry "Greece" 7 1 2 1, none) := by
    decide
  rw [h] at hc
  exact hc

/-! ## Sorting -/

/-- A `less` that compares one integer key, greater first, meets the requirement of
package `sort`. -/
theorem isStrictWeakOrder_intKey (key : Country → Int) :
    IsStrictWeakOrder (fun a b => decide (key a > key b)) := by
  refine ⟨?_, ?_, ?_⟩
  · intro a
    simp
  · intro a b c hab hbc
    simp only [gt_iff_lt, decide_eq_true_eq] at hab hbc ⊢
    omega
  · intro a b c hab hbc
    simp only [gt_iff_lt, decide_eq_false_iff_not, not_lt] at hab hbc ⊢
    omega

/-- A `less` that compares one rational key, greater first, meets the requirement of
package `sort`. -/
theorem isStrictWeakOrder_ratKey (key : Country → Rat) :
    IsStrictWeakOrder (fun a b => decide (key a > key b)) := by
  refine ⟨?_, ?_, ?_⟩
  · intro a
    simp
  · intro a b c hab hbc
    simp only [gt_iff_lt, decide_eq_true_eq] at hab hbc ⊢
    exact lt_trans hbc hab
  · intro a b c hab hbc
    simp only [gt_iff_lt, decide_eq_false_iff_not, not_lt] at hab hbc ⊢
    exact le_trans hab hbc

/-- A `less` that compares a first integer key and, when it ties, a second one, greater
first, meets the requirement of package `sort`. -/
theorem isStrictWeakOrder_twoKeys (k1 k2 : Country → Int) :
    IsStrictWeakOrder
      (fun a b => if k1 a ≠ k1 b then decide (k1 a > k1 b) else decide (k2 a > k2 b)) := by
  refine ⟨?_, ?_, ?_⟩
  · intro a
    simp
  · intro a b c hab hbc
    beta_reduce at hab hbc ⊢
    split_ifs at hab hbc ⊢ <;>
      simp only [gt_iff_lt, decide_eq_true_eq, ne_eq, not_not] at * <;> omega
  · intro a b c hab hbc
    beta_reduce at hab hbc ⊢
    split_ifs at hab hbc ⊢ <;>
      simp only [gt_iff_lt, decide_eq_false_iff_not, not_lt, ne_eq, not_not] at * <;> omega

theorem lessCases_strictWeak : IsStrictWeakOrder lessCases :=
  isStrictWeakOrder_twoKeys (fun v => v.Cases) (fun v => v.Deaths)

theorem lessDeaths_strictWeak : IsStrictWeakOrder lessDeaths :=
  isStrictWeakOrder_twoKeys (fun v => v.Deaths) (fun v => v.Cases)

theorem lessTodayCases_strictWeak : IsStrictWeakOrder lessTodayCases :=
  isStrictWeakOrder_intKey (fun v => v.TodayCases)

theorem lessTodayDeaths_strictWeak : IsStrictWeakOrder lessTodayDeaths :=
  isStrictWeakOrder_intKey (fun v => v.TodayDeaths)

theorem lessRecovered_strictWeak : IsStrictWeakOrder lessRecovered :=
  isStrictWeakOrder_intKey (fun v => v.Recovered)

theorem lessActive_strictWeak : IsStrictWeakOrder lessActive :=
  isStrictWeakOrder_intKey (fun v => v.Active)

theorem lessCritical_strictWeak : IsStrictWeakOrder lessCritical :=
  isStrictWeakOrder_intKey (fun v => v.Critical)

theorem lessCasesPerOneMillion_strictWeak : IsStrictWeakOrder lessCasesPerOneMillion :=
  isStrictWeakOrder_ratKey (fun v => v.CasesPerOneMillion)

/-- Under the requirement of package `sort`, a list in which no element is `less` than
its predecessor has no element `less` than any element before it. -/
theorem pairwise_of_chain (less : Country → Country → Bool) (hLess : IsStrictWeakOrder less)
    (l : List Country) (h : l.Chain' (fun a b => less b a = false)) :
    l.Pairwise (fun a b => less b a = false) := by
  haveI : IsTrans Country (fun a b => less b a = false) :=
    ⟨fun a b c hab hbc => hLess.2.2 c b a hbc hab⟩
  exact List.chain'_iff_pairwise.mp h

/-- What a `SortBy...` function returns when `GetAllCountries` returns a dataset. -/
theorem sortCountriesBy_of_dataset
    (sortSlice : (Country → Country → Bool) → List Country → List Country)
    (less : Country → Country → Bool) (w : World) (ds : List Country)
    (hAll : (GetAllCountries w).1 = ({ Data := ds }, none)) :
    (sortCountriesBy sortSlice less w).1 = ({ Data := sortSlice less ds }, none) := by
  have h1 : (GetAllCountries w).1.1 = { Data := ds } := by rw [hAll]
  have h2 : (GetAllCountries w).1.2 = none := by rw [hAll]
  simp only [sortCountriesBy, h1, h2, ne_eq, not_true_eq_false, if_false]

/-- Under the contract of `sort.Slice`, the output of a `SortBy...` function with a `less`
meeting the requirement has no record `less` than a record before it. -/
theorem sortSlice_pairwise
    (sortSlice : (Country → Country → Bool) → List Country → List Country)
    (hSort : SliceSortContract sortSlice) (less : Country → Country → Bool)
    (hLess : IsStrictWeakOrder less) (ds : List Country) :
    (sortSlice less ds).Pairwise (fun a b => less b a = false) :=
  pairwise_of_chain less hLess _ ((hSort less ds).2 hLess)

/-- The Shell pass only exchanges records: every record occurs as often after it as
before. -/
theorem shellPass_count (less : Country → Country → Bool) (v : Country)
    (xs ys : List Country) :
    ((shellPass less xs ys).1 ++ (shellPass less xs ys).2).count v = (xs ++ ys).count v := by
  induction xs generalizing ys with
  | nil => cases ys <;> simp [shellPass]
  | cons x xs ih =>
    cases ys with
    | nil => simp [shellPass]
    | cons y ys =>
      have h := ih ys
      simp only [List.count_append] at h
      by_cases hl : less y x = true
      · simp only [shellPass, hl, if_true, List.count_append, List.count_cons]
        omega
      · have hf : less y x = false := by simpa using hl
        simp only [shellPass, hf, Bool.false_eq_true, if_false, List.count_append,
          List.count_cons]
        omega

theorem shellPass_perm (less : Country → Country → Bool) (xs ys : List Country) :
    ((shellPass less xs ys).1 ++ (shellPass less xs ys).2).Perm (xs ++ ys) :=
  List.perm_iff_count.mpr (fun v => shellPass_count less v xs ys)

/-- The loop of `insertionSort_func` keeps all the records. -/
theorem insertionLoop_perm (less : Country → Country → Bool) (l acc : List Country) :
    (l.foldl (fun sortedRev x => List.orderedInsert (fun a b => less a b = false) x sortedRev)
      acc).Perm (l ++ acc) := by
  induction l generalizing acc with
  | nil => exact List.Perm.refl _
  | cons x l ih =>
    rw [List.foldl_cons]
    refine (ih _).trans ?_
    refine (List.Perm.append_left l (List.perm_orderedInsert _ x acc)).trans ?_
    exact List.perm_middle

/-- The loop of `insertionSort_func` keeps its sorted part sorted. -/
theorem insertionLoop_sorted (less : Country → Country → Bool) (hLess : IsStrictWeakOrder less)
    (l acc : List Country) (hAcc : acc.Pairwise (fun a b => less a b = false)) :
    (l.foldl (fun sortedRev x => List.orderedInsert (fun a b => less a b = false) x sortedRev)
      acc).Pairwise (fun a b => less a b = false) := by
  haveI : IsTrans Country (fun a b => less a b = false) :=
    ⟨fun a b c hab hbc => hLess.2.2 a b c hab hbc⟩
  haveI : IsTotal Country (fun a b => less a b = false) := by
    refine ⟨fun a b => ?_⟩
    by_cases hab : less a b = true
    · right
      by_contra hba
      have hba2 : less b a = true := by simpa using hba
      have haa := hLess.2.1 a b a hab hba2
      rw [hLess.1 a] at haa
      cases haa
    · left
      simpa using hab
  induction l generalizing acc with
  | nil => exact hAcc
  | cons x l ih =>
    rw [List.foldl_cons]
    exact ih _ (List.Sorted.orderedInsert x acc hAcc)

theorem insertionSort_func_perm (less : Country → Country → Bool) (l : List Country) :
    (insertionSort_func less l).Perm l := by
  unfold insertionSort_func
  refine (List.reverse_perm _).trans ?_
  simpa using insertionLoop_perm less l []

theorem insertionSort_func_sorted (less : Country → Country → Bool)
    (hLess : IsStrictWeakOrder less) (l : List Country) :
    (insertionSort_func less l).Pairwise (fun a b => less b a = false) := by
  unfold insertionSort_func
  rw [List.pairwise_reverse]
  exact insertionLoop_sorted less hLess l [] List.Pairwise.nil

/-- The Shell pass followed by the insertion sort meets the contract of `sort.Slice`. -/
theorem sortSliceShort_contract : SliceSortContract sortSliceShort := by
  intro less l
  refine ⟨?_, fun hLess => ?_⟩
  · unfold sortSliceShort
    refine (insertionSort_func_perm less _).trans ?_
    refine (shellPass_perm less _ _).trans ?_
    rw [List.take_append_drop]
  · unfold sortSliceShort
    exact (insertionSort_func_sorted less hLess _).chain'

/-- C15: for every dataset returned by `GetAllCountries`, under the contract of
`sort.Slice`, the output of `SortByDeaths` is ordered lexicographically descending by
(deaths, cases) and the output of `SortByCases` by (cases, deaths): of two adjacent output
records, and of any two output records, the earlier has the greater primary key, or the
same primary key and a secondary key that is not less. -/
theorem SortByDeaths_SortByCases_lexicographic
    (sortSlice : (Country → Country → Bool) → List Country → List Country)
    (w : World) (ds : List Country) (hSort : SliceSortContract sortSlice)
    (hAll : (GetAllCountries w).1 = ({ Data := ds }, none)) :
    (∃ out, (SortByDeaths sortSlice w).1 = ({ Data := out }, none) ∧
      out.Chain' (fun a b =>
        a.Deaths > b.Deaths ∨ (a.Deaths = b.Deaths ∧ ¬ a.Cases < b.Cases)) ∧
      out.Pairwise (fun a b =>
        a.Deaths > b.Deaths ∨ (a.Deaths = b.Deaths ∧ ¬ a.Cases < b.Cases))) ∧
    (∃ out, (SortByCases sortSlice w).1 = ({ Data := out }, none) ∧
      out.Chain' (fun a b =>
        a.Cases > b.Cases ∨ (a.Cases = b.Cases ∧ ¬ a.Deaths < b.Deaths)) ∧
      out.Pairwise (fun a b =>
        a.Cases > b.Cases ∨ (a.Cases = b.Cases ∧ ¬ a.Deaths < b.Deaths))) := by
  have hD : (sortSlice lessDeaths ds).Pairwise (fun a b =>
      a.Deaths > b.Deaths ∨ (a.Deaths = b.Deaths ∧ ¬ a.Cases < b.Cases)) := by
    refine (sortSlice_pairwise sortSlice hSort lessDeaths lessDeaths_strictWeak ds).imp ?_
    intro a b h
    unfold lessDeaths at h
    split_ifs at h <;>
      simp only [gt_iff_lt, decide_eq_false_iff_not, not_lt, ne_eq, not_not] at * <;> omega
  have hC : (sortSlice lessCases ds).Pairwise (fun a b =>
      a.Cases > b.Cases ∨ (a.Cases = b.Cases ∧ ¬ a.Deaths < b.Deaths)) := by
    refine (sortSlice_pairwise sortSlice hSort lessCases lessCases_strictWeak ds).imp ?_
    intro a b h
    unfold lessCases at h
    split_ifs at h <;>
      simp only [gt_iff_lt, decide_eq_false_iff_not, not_lt, ne_eq, not_not] at * <;> omega
  exact ⟨⟨_, sortCountriesBy_of_dataset sortSlice lessDeaths w ds hAll, hD.chain', hD⟩,
    ⟨_, sortCountriesBy_of_dataset sortSlice lessCases w ds hAll, hC.chain', hC⟩⟩

/-- C15 at the dataset [{A: deaths=10, cases=5}, {B: deaths=10, cases=20}]: sorted by
deaths the records come out as [B, A], and this output is ordered as stated. -/
theorem SortByDeaths_SortByCases_lexicographic_witness :
    (SortByDeaths sortSliceShort
        (warmWorld [mkCountry "A" 5 0 10 0, mkCountry "B" 20 0 10 0] [])).1 =
      ({ Data := [mkCountry "B" 20 0 10 0, mkCountry "A" 5 0 10 0] }, none) ∧
    [mkCountry "B" 20 0 10 0, mkCountry "A" 5 0 10 0].Chain' (fun a b =>
      a.Deaths > b.Deaths ∨ (a.Deaths = b.Deaths ∧ ¬ a.Cases < b.Cases)) := by
  obtain ⟨⟨out, hOut, hChain, _⟩, _⟩ := SortByDeaths_SortByCases_lexicographic sortSliceShort
    (warmWorld [mkCountry "A" 5 0 10 0, mkCountry "B" 20 0 10 0] [])
    [mkCountry "A" 5 0 10 0, mkCountry "B" 20 0 10 0] sortSliceShort_contract (by decide)
  have hEval : (SortByDeaths sortSliceShort
      (warmWorld [mkCountry "A" 5 0 10 0, mkCountry "B" 20 0 10 0] [])).1 =
      ({ Data := [mkCountry "B" 20 0 10 0, mkCountry "A" 5 0 10 0] }, none) := by decide
  refine ⟨hEval, ?_⟩
  rw [hEval] at hOut
  have hEq : out = [mkCountry "B" 20 0 10 0, mkCountry "A" 5 0 10 0] := by
    injection hOut with h1 _
    injection h1 with h2
    exact h2.symm
  rw [← hEq]
  exact hChain

/-- C16: for every dataset returned by `GetAllCountries`, under the contract of
`sort.Slice`, the outputs of `SortByTodayCases`, `SortByTodayDeaths`, `SortByRecovered`,
`SortByActive`, `SortByCritical` and `SortByCasesPerOneMillion` are non-increasing in
todayCases, todayDeaths, recovered, active, critical and casesPerOneMillion: no record has
a smaller value of the field than a record after it. -/
theorem SortBy_single_key_non_increasing
    (sortSlice : (Country → Country → Bool) → List Country → List Country)
    (w : World) (ds : List Country) (hSort : SliceSortContract sortSlice)
    (hAll : (GetAllCountries w).1 = ({ Data := ds }, none)) :
    (∃ out, (SortByTodayCases sortSlice w).1 = ({ Data := out }, none) ∧
      out.Pairwise (fun a b => a.TodayCases ≥ b.TodayCases)) ∧
    (∃ out, (SortByTodayDeaths sortSlice w).1 = ({ Data := out }, none) ∧
      out.Pairwise (fun a b => a.TodayDeaths ≥ b.TodayDeaths)) ∧
    (∃ out, (SortByRecovered sortSlice w).1 = ({ Data := out }, none) ∧
      out.Pairwise (fun a b => a.Recovered ≥ b.Recovered)) ∧
    (∃ out, (SortByActive sortSlice w).1 = ({ Data := out }, none) ∧
      out.Pairwise (fun a b => a.Active ≥ b.Active)) ∧
    (∃ out, (SortByCritical sortSlice w).1 = ({ Data := out }, none) ∧
      out.Pairwise (fun a b => a.Critical ≥ b.Critical)) ∧
    (∃ out, (SortByCasesPerOneMillion sortSlice w).1 = ({ Data := out }, none) ∧
      out.Pairwise (fun a b => a.CasesPerOneMillion ≥ b.CasesPerOneMillion)) := by
  refine ⟨⟨_, sortCountriesBy_of_dataset sortSlice lessTodayCases w ds hAll, ?_⟩,
    ⟨_, sortCountriesBy_of_dataset sortSlice lessTodayDeaths w ds hAll, ?_⟩,
    ⟨_, sortCountriesBy_of_dataset sortSlice lessRecovered w ds hAll, ?_⟩,
    ⟨_, sortCountriesBy_of_dataset sortSlice lessActive w ds hAll, ?_⟩,
    ⟨_, sortCountriesBy_of_dataset sortSlice lessCritical w ds hAll, ?_⟩,
    ⟨_, sortCountriesBy_of_dataset sortSlice lessCasesPerOneMillion w ds hAll, ?_⟩⟩
  · refine (sortSlice_pairwise sortSlice hSort _ lessTodayCases_strictWeak ds).imp ?_
    intro a b h
    simpa [lessTodayCases] using h
  · refine (sortSlice_pairwise sortSlice hSort _ lessTodayDeaths_strictWeak ds).imp ?_
    intro a b h
    simpa [lessTodayDeaths] using h
  · refine (sortSlice_pairwise sortSlice hSort _ lessRecovered_strictWeak ds).imp ?_
    intro a b h
    simpa [lessRecovered] using h
  · refine (sortSlice_pairwise sortSlice hSort _ lessActive_strictWeak ds).imp ?_
    intro a b h
    simpa [lessActive] using h
  · refine (sortSlice_pairwise sortSlice hSort _ lessCritical_strictWeak ds).imp ?_
    intro a b h
    simpa [lessCritical] using h
  · refine (sortSlice_pairwise sortSlice hSort _ lessCasesPerOneMillion_strictWeak ds).imp ?_
    intro a b h
    simpa [lessCasesPerOneMillion] using h

/-- C16 at seven records with todayCases 5, 5, 1, 1, 1, 1, 9: the output of
`SortByTodayCases` has todayCases 9, 5, 5, 1, 1, 1, 1. -/
theorem SortBy_single_key_non_increasing_witness :
    ∃ out, (SortByTodayCases sortSliceShort (warmWorld sevenRecords [])).1 =
        ({ Data := out }, none) ∧
      out.Pairwise (fun a b => a.TodayCases ≥ b.TodayCases) ∧
      out.map (fun v => v.TodayCases) = [9, 5, 5, 1, 1, 1, 1] := by
  obtain ⟨⟨out, hOut, hSorted⟩, _⟩ := SortBy_single_key_non_increasing sortSliceShort
    (warmWorld sevenRecords []) sevenRecords sortSliceShort_contract (by decide)
  refine ⟨out, hOut, hSorted, ?_⟩
  have hEval : ((SortByTodayCases sortSliceShort (warmWorld sevenRecords [])).1.1.Data.map
      (fun v => v.TodayCases)) = [9, 5, 5, 1, 1, 1, 1] := by decide
  rw [hOut] at hEval
  exact hEval

/-- C17, as stated, fails: with the Shell pass and insertion sort that `sort.Slice` of the
Go releases up to 1.18 runs on short slices, which meet its contract, `SortByTodayCases`
on seven records of which A comes before B with the same todayCases returns G, B, A, C,
D, E, F: the records that compare equal to A are A, B in the dataset and B, A in the
output. -/
theorem SortByTodayCases_reorders_ties :
    SliceSortContract sortSliceShort ∧
    (GetAllCountries (warmWorld sevenRecords [])).1 = ({ Data := sevenRecords }, none) ∧
    (SortByTodayCases sortSliceShort (warmWorld sevenRecords [])).1.1.Data.map
      (fun v => v.Country) = ["G", "B", "A", "C", "D", "E", "F"] ∧
    (sevenRecords.filter (fun v =>
      !lessTodayCases v (mkCountry "A" 0 5 0 0) && !lessTodayCases (mkCountry "A" 0 5 0 0) v)).map
        (fun v => v.Country) = ["A", "B"] ∧
    ((SortByTodayCases sortSliceShort (warmWorld sevenRecords [])).1.1.Data.filter (fun v =>
      !lessTodayCases v (mkCountry "A" 0 5 0 0) && !lessTodayCases (mkCountry "A" 0 5 0 0) v)).map
        (fun v => v.Country) = ["B", "A"] :=
  ⟨sortSliceShort_contract, by decide, by decide, by decide, by decide⟩

/-- C17, amended: for every dataset returned by `GetAllCountries`, under the contract of
`sort.Slice`, each of the eight `SortBy...` functions returns an output in which, for
every record `x`, the records that compare equal to `x` under the `less` of the sort are
the same records as in the dataset, each as many times, in an order that is not
guaranteed to be that of the dataset. -/
theorem SortBy_keeps_ties
    (sortSlice : (Country → Country → Bool) → List Country → List Country)
    (w : World) (ds : List Country) (hSort : SliceSortContract sortSlice)
    (hAll : (GetAllCountries w).1 = ({ Data := ds }, none)) :
    ∀ p ∈ [(SortByCases sortSlice, lessCases), (SortByDeaths sortSlice, lessDeaths),
        (SortByTodayCases sortSlice, lessTodayCases),
        (SortByTodayDeaths sortSlice, lessTodayDeaths),
        (SortByRecovered sortSlice, lessRecovered), (SortByActive sortSlice, lessActive),
        (SortByCritical sortSlice, lessCritical),
        (SortByCasesPerOneMillion sortSlice, lessCasesPerOneMillion)],
      ∃ out, (p.1 w).1 = ({ Data := out }, none) ∧
        ∀ x, (out.filter (fun v => !p.2 v x && !p.2 x v)).Perm
          (ds.filter (fun v => !p.2 v x && !p.2 x v)) := by
  intro p hp
  simp only [List.mem_cons, List.mem_singleton, List.not_mem_nil, or_false] at hp
  rcases hp with rfl | rfl | rfl | rfl | rfl | rfl | rfl | rfl
  all_goals
    exact ⟨_, sortCountriesBy_of_dataset sortSlice _ w ds hAll,
      fun x => ((hSort _ ds).1).filter _⟩

/-- C17, amended, at the seven records of which A and B have the same todayCases: the
output of `SortByTodayCases` holds, among the records that compare equal to A, the same
records as the dataset. -/
theorem SortBy_keeps_ties_witness :
    ∃ out, (SortByTodayCases sortSliceShort (warmWorld sevenRecords [])).1 =
        ({ Data := out }, none) ∧
      (out.filter (fun v =>
        !lessTodayCases v (mkCountry "A" 0 5 0 0) && !lessTodayCases (mkCountry "A" 0 5 0 0) v)).Perm
        [mkCountry "A" 0 5 0 0, mkCountry "B" 0 5 0 0] := by
  obtain ⟨out, hOut, hTies⟩ := SortBy_keeps_ties sortSliceShort (warmWorld sevenRecords [])
    sevenRecords sortSliceShort_contract (by decide)
    (SortByTodayCases sortSliceShort, lessTodayCases) (by simp)
  refine ⟨out, hOut, (hTies (mkCountry "A" 0 5 0 0)).trans ?_⟩
  have hEval : sevenRecords.filter (fun v =>
      !lessTodayCases v (mkCountry "A" 0 5 0 0) && !lessTodayCases (mkCountry "A" 0 5 0 0) v) =
      [mkCountry "A" 0 5 0 0, mkCountry "B" 0 5 0 0] := by decide
  rw [hEval]

/-- C18: in `perform`, for a request whose body is read and decoded, each of the selectors
"deaths", "cases", "todayCases", "todayDeaths", "recovered", "active", "critical" and
"casesPerOneMillion" answers with the result of the like-named `SortBy...` function, and
every other selector, the empty one included, answers with the result of
`GetAllCountries`. -/
theorem perform_dispatch
    (sortSlice : (Country → Country → Bool) → List Country → List Country)
    (r : SortHTTPRequest) (w : World)
    (hRead : r.readAllError = none) (hDecode : r.unmarshalError = none) :
    (r.sortRequest.sortType = "deaths" →
      perform sortSlice r w = sortResponse (SortByDeaths sortSlice w)) ∧
    (r.sortRequest.sortType = "cases" →
      perform sortSlice r w = sortResponse (SortByCases sortSlice w)) ∧
    (r.sortRequest.sortType = "todayCases" →
      perform sortSlice r w = sortResponse (SortByTodayCases sortSlice w)) ∧
    (r.sortRequest.sortType = "todayDeaths" →
      perform sortSlice r w = sortResponse (SortByTodayDeaths sortSlice w)) ∧
    (r.sortRequest.sortType = "recovered" →
      perform sortSlice r w = sortResponse (SortByRecovered sortSlice w)) ∧
    (r.sortRequest.sortType = "active" →
      perform sortSlice r w = sortResponse (SortByActive sortSlice w)) ∧
    (r.sortRequest.sortType = "critical" →
      perform sortSlice r w = sortResponse (SortByCritical sortSlice w)) ∧
    (r.sortRequest.sortType = "casesPerOneMillion" →
      perform sortSlice r w = sortResponse (SortByCasesPerOneMillion sortSlice w)) ∧
    (r.sortRequest.sortType ∉ ["deaths", "cases", "todayCases", "todayDeaths", "recovered",
        "active", "critical", "casesPerOneMillion"] →
      perform sortSlice r w = sortResponse (GetAllCountries w)) := by
  refine ⟨?_, ?_, ?_, ?_, ?_, ?_, ?_, ?_, ?_⟩
  all_goals
    intro h
    simp only [perform, hRead, hDecode]
  · simp [h]
  · simp [h]
  · simp [h]
  · simp [h]
  · simp [h]
  · simp [h]
  · simp [h]
  · simp [h]
  · simp only [List.mem_cons, List.mem_singleton, List.not_mem_nil, or_false, not_or] at h
    simp [h]

/-- C18 at the cached dataset [{A: deaths=10, cases=5}, {B: deaths=10, cases=20}]: the
selector "deaths" answers status 200 with [B, A], the output of `SortByDeaths`, and the
empty selector answers status 200 with the dataset as `GetAllCountries` returns it. -/
theorem perform_dispatch_witness :
    (perform sortSliceShort
        { readAllError := none, unmarshalError := none, sortRequest := { sortType := "deaths" } }
        (warmWorld [mkCountry "A" 5 0 10 0, mkCountry "B" 20 0 10 0] [])).1 =
      (ResponseBody.countries
        { Data := [mkCountry "B" 20 0 10 0, mkCountry "A" 5 0 10 0] }, 200) ∧
    (perform sortSliceShort
        { readAllError := none, unmarshalError := none, sortRequest := { sortType := "" } }
        (warmWorld [mkCountry "A" 5 0 10 0, mkCountry "B" 20 0 10 0] [])).1 =
      (ResponseBody.countries
        { Data := [mkCountry "A" 5 0 10 0, mkCountry "B" 20 0 10 0] }, 200) := by
  have hDeaths := (perform_dispatch sortSliceShort
    { readAllError := none, unmarshalError := none, sortRequest := { sortType := "deaths" } }
    (warmWorld [mkCountry "A" 5 0 10 0, mkCountry "B" 20 0 10 0] []) rfl rfl).1 rfl
  have hOther := (perform_dispatch sortSliceShort
    { readAllError := none, unmarshalError := none, sortRequest := { sortType := "" } }
    (warmWorld [mkCountry "A" 5 0 10 0, mkCountry "B" 20 0 10 0] []) rfl rfl).2.2.2.2.2.2.2.2
    (by decide)
  rw [hDeaths, hOther]
  exact ⟨by decide, by decide⟩

/-- C19: with a warm cache (the key "total" holds a non-empty dataset, and the lookup
suffers no transport fault), two consecutive calls of `GetAllCountries` return equal
results, the cached dataset with a nil error, and the first call, like the second, leaves
the contents of the cache unchanged. -/
theorem GetAllCountries_warm_twice (w : World) (d : Countries)
    (hFault : w.getFault = none)
    (hHolds : w.store.lookup "total" = some (Payload.snapshot d))
    (hNonEmpty : d.Data ≠ []) :
    (GetAllCountries (GetAllCountries w).2).1 = (GetAllCountries w).1 ∧
      (GetAllCountries w).1 = (d, none) ∧
      (GetAllCountries w).2.store = w.store ∧
      (GetAllCountries (GetAllCountries w).2).2.store = w.store := by
  have h1 := GetAllCountries_of_hit w d (caching_Get_snapshot w "total" d hFault hHolds)
    hNonEmpty
  have h2 := GetAllCountries_of_hit (GetAllCountries w).2 d
    (caching_Get_snapshot _ "total" d (by rw [h1]; exact hFault) (by rw [h1]; exact hHolds))
    hNonEmpty
  refine ⟨?_, ?_, ?_, ?_⟩
  · rw [h2, h1]
  · rw [h1]
  · rw [h1]; rfl
  · rw [h2, h1]; rfl

/-- C19 at a cache holding [{X, cases=7}] and an upstream that would answer another
dataset. -/
theorem GetAllCountries_warm_twice_witness :
    (GetAllCountries
        (GetAllCountries (warmWorld [mkCountry "X" 7 1 2 1] [mkCountry "Y" 9 9 9 9])).2).1 =
      (GetAllCountries (warmWorld [mkCountry "X" 7 1 2 1] [mkCountry "Y" 9 9 9 9])).1 ∧
    (GetAllCountries (warmWorld [mkCountry "X" 7 1 2 1] [mkCountry "Y" 9 9 9 9])).2.store =
      [("total", Payload.snapshot { Data := [mkCountry "X" 7 1 2 1] })] := by
  have h := GetAllCountries_warm_twice
    (warmWorld [mkCountry "X" 7 1 2 1] [mkCountry "Y" 9 9 9 9])
    { Data := [mkCountry "X" 7 1 2 1] } (by decide) (by decide) (by decide)
  exact ⟨h.1, h.2.2.1⟩

/-! ## Continent data -/

/-- C20: for every cache response and every upstream response, both obtained without
error, `GetContinentData` returns the cached response when it is non-empty and the
upstream response when the cached response is empty, in both cases with a nil error. -/
theorem GetContinentData_cache_aside (cached upstream : List ContinentRecord) :
    (cached ≠ [] → GetContinentData (cached, none) (upstream, none) = (cached, none)) ∧
      (cached = [] → GetContinentData (cached, none) (upstream, none) = (upstream, none)) := by
  constructor
  · intro h
    have hlen : ¬ cached.length = 0 := fun hl => h (List.length_eq_zero.mp hl)
    simp [GetContinentData, hlen]
  · intro h
    simp [GetContinentData, h]

/-- C20 at the responses of `continent_test.go`: the cache {32, 44} with the upstream
{64, 74} returns {32, 44}, and the empty cache returns {64, 74}. -/
theorem GetContinentData_cache_aside_witness :
    GetContinentData ([{ Cases := 32 }, { Cases := 44 }], none)
        ([{ Cases := 64 }, { Cases := 74 }], none) =
      ([{ Cases := 32 }, { Cases := 44 }], none) ∧
    GetContinentData ([], none) ([{ Cases := 64 }, { Cases := 74 }], none) =
      ([{ Cases := 64 }, { Cases := 74 }], none) :=
  ⟨(GetContinentData_cache_aside [{ Cases := 32 }, { Cases := 44 }]
      [{ Cases := 64 }, { Cases := 74 }]).1 (by decide),
    (GetContinentData_cache_aside [] [{ Cases := 64 }, { Cases := 74 }]).2 rfl⟩

/-! ## The comparison engine -/

/-- A traversal whose function succeeds on every element succeeds with the mapped list. -/
theorem mapM_some_of_forall {α β : Type} (f : α → Option β) (g : α → β) (l : List α)
    (h : ∀ x ∈ l, f x = some (g x)) : l.mapM f = some (l.map g) := by
  induction l with
  | nil => rfl
  | cons a l ih =>
    have ha := h a (List.mem_cons_self a l)
    have hl := ih (fun x hx => h x (List.mem_cons_of_mem a hx))
    rw [List.mapM_cons, ha, hl]
    rfl

/-- The per-day transform never indexes out of range: it returns, index by index, the
first entry and then the differences of neighbours. -/
theorem perDayDeltas_eq (s : List Int) :
    perDayDeltas s = some ((List.range s.length).map (fun i =>
      if i = 0 then s.getD 0 0 else wrapInt64 (s.getD i 0 - s.getD (i - 1) 0))) := by
  unfold perDayDeltas
  split_ifs with hlen
  · rcases s with _ | ⟨x, _ | ⟨y, t⟩⟩
    · rfl
    · rfl
    · simp only [List.length_cons] at hlen
      omega
  · apply mapM_some_of_forall
    intro i hi
    have hi2 : i < s.length := List.mem_range.mp hi
    by_cases h0 : i = 0
    · subst h0
      simp [List.getD, List.getElem?_eq_getElem hi2]
    · have hp : i - 1 < s.length := by omega
      simp [h0, List.getD, List.getElem?_eq_getElem hi2, List.getElem?_eq_getElem hp]

/-- The per-day transform of a series `s` returns a series `d` of the same length with
`d[0] = s[0]` and `d[i+1] = s[i+1] - s[i]`, the difference taken in Go's `int`. -/
theorem perDayDeltas_spec (s : List Int) :
    ∃ d, perDayDeltas s = some d ∧ d.length = s.length ∧ d[0]? = s[0]? ∧
      (∀ i a b, s[i]? = some a → s[i + 1]? = some b →
        d[i + 1]? = some (wrapInt64 (b - a))) ∧
      (s = [] → d = []) := by
  refine ⟨_, perDayDeltas_eq s, by simp, ?_, ?_, ?_⟩
  · rcases s with _ | ⟨x, t⟩
    · rfl
    · simp [List.getElem?_range, List.getD]
  · intro i a b ha hb
    have hlt : i + 1 < s.length := (List.getElem?_eq_some.mp hb).1
    rw [List.getElem?_map, List.getElem?_range hlt]
    simp [List.getD, ha, hb]
  · intro hs
    subst hs
    rfl

/-- C21: for every historical series source and every request whose body is read,
`PerformPerDayDeath` answers status 200 with a comparison in which, for each of the two
countries, the series `d` is the per-day delta of the cumulative series `s` of that
country: `d` has the length of `s`, `d[0] = s[0]`, `d[i+1] = s[i+1] - s[i]` in Go's `int`
(the exact difference when it fits), and `d` is empty when `s` is empty; no index is out
of range. -/
theorem PerformPerDayDeath_deltas (deathsSeries : String → List Int)
    (r : CompareHTTPRequest) (hRead : r.readAllError = none) :
    ∃ d1 d2, PerformPerDayDeath deathsSeries r =
        some (CompareResponseBody.compare
          { CountryOne := { Country := r.compareRequest.NameOne, Data := d1 },
            CountryTwo := { Country := r.compareRequest.NameTwo, Data := d2 } }, 200) ∧
      ∀ p ∈ [(deathsSeries r.compareRequest.NameOne, d1),
          (deathsSeries r.compareRequest.NameTwo, d2)],
        p.2.length = p.1.length ∧ p.2[0]? = p.1[0]? ∧
        (∀ i a b, p.1[i]? = some a → p.1[i + 1]? = some b →
          p.2[i + 1]? = some (wrapInt64 (b - a)) ∧
          (-2 ^ 63 ≤ b - a → b - a < 2 ^ 63 → p.2[i + 1]? = some (b - a))) ∧
        (p.1 = [] → p.2 = []) := by
  obtain ⟨d1, h1, hl1, hz1, hd1, he1⟩ := perDayDeltas_spec (deathsSeries r.compareRequest.NameOne)
  obtain ⟨d2, h2, hl2, hz2, hd2, he2⟩ := perDayDeltas_spec (deathsSeries r.compareRequest.NameTwo)
  refine ⟨d1, d2, ?_, ?_⟩
  · simp only [PerformPerDayDeath, hRead, ComparePerDayDeathsCountries, h1, h2]
  · intro p hp
    simp only [List.mem_cons, List.mem_singleton, List.not_mem_nil, or_false] at hp
    rcases hp with rfl | rfl
    · refine ⟨hl1, hz1, fun i a b ha hb => ⟨hd1 i a b ha hb, fun hlo hhi => ?_⟩, he1⟩
      rw [hd1 i a b ha hb, wrapInt64_of_inRange _ hlo hhi]
    · refine ⟨hl2, hz2, fun i a b ha hb => ⟨hd2 i a b ha hb, fun hlo hhi => ?_⟩, he2⟩
      rw [hd2 i a b ha hb, wrapInt64_of_inRange _ hlo hhi]

/-- C21 at the series [1, 3, 6] of Italy and an unknown country, whose series is empty:
the deltas are [1, 2, 3] and the empty series. -/
theorem PerformPerDayDeath_deltas_witness :
    ∃ d1 d2, PerformPerDayDeath exampleDeaths
        { readAllError := none,
          compareRequest := { NameOne := "Italy", NameTwo := "Atlantis" } } =
        some (CompareResponseBody.compare
          { CountryOne := { Country := "Italy", Data := d1 },
            CountryTwo := { Country := "Atlantis", Data := d2 } }, 200) ∧
      d1 = [1, 2, 3] ∧ d2 = [] := by
  obtain ⟨d1, d2, h, hProp⟩ := PerformPerDayDeath_deltas exampleDeaths
    { readAllError := none, compareRequest := { NameOne := "Italy", NameTwo := "Atlantis" } } rfl
  have hItaly : exampleDeaths "Italy" = [1, 3, 6] := by decide
  have hAtlantis : exampleDeaths "Atlantis" = [] := by decide
  obtain ⟨hLen, hZero, hStep, _⟩ := hProp (exampleDeaths "Italy", d1) (by simp)
  obtain ⟨_, _, _, hEmpty⟩ := hProp (exampleDeaths "Atlantis", d2) (by simp)
  refine ⟨d1, d2, h, ?_, hEmpty hAtlantis⟩
  have hLen2 : d1.length = 3 := by
    have := hLen
    simp only [hItaly] at this
    exact this
  have e0 : d1[0]? = some 1 := by
    have := hZero
    simp only [hItaly] at this
    exact this
  have e1 : d1[1]? = some 2 := by
    have := (hStep 0 1 3 (by simp [hItaly]) (by simp [hItaly])).1
    exact this.trans (by decide)
  have e2 : d1[2]? = some 3 := by
    have := (hStep 1 3 6 (by simp [hItaly]) (by simp [hItaly])).1
    exact this.trans (by decide)
  rcases d1 with _ | ⟨a, _ | ⟨b, _ | ⟨c, _ | ⟨e, t⟩⟩⟩⟩ <;> simp at hLen2
  simp at e0 e1 e2
  rw [e0, e1, e2]

/-- The trim drops the zeros that precede the first non-zero entry and nothing else. -/
theorem fromFirstEvent_of_split (zeros rest : List Int) (x : Int)
    (hz : ∀ z ∈ zeros, z = 0) (hx : x ≠ 0) :
    fromFirstEvent (zeros ++ x :: rest) = x :: rest := by
  induction zeros with
  | nil => simp [fromFirstEvent, List.dropWhile_cons, hx]
  | cons z zs ih =>
    have hz0 : z = 0 := hz z (List.mem_cons_self z zs)
    have hzs : ∀ y ∈ zs, y = 0 := fun y hy => hz y (List.mem_cons_of_mem z hy)
    have h := ih hzs
    unfold fromFirstEvent at h ⊢
    simp [List.dropWhile_cons, hz0, h]

/-- C22: for every historical series source and every request whose body is read,
`PerformFromFirstDeath` answers status 200 with a comparison in which the series of each
of the two countries is the suffix of that country's own cumulative series that starts at
its first non-zero entry; the series of one country does not depend on the series of the
other, so the two are not re-aligned. -/
theorem PerformFromFirstDeath_trims (deathsSeries : String → List Int)
    (r : CompareHTTPRequest) (hRead : r.readAllError = none) :
    ∃ d1 d2, PerformFromFirstDeath deathsSeries r =
        (CompareResponseBody.compare
          { CountryOne := { Country := r.compareRequest.NameOne, Data := d1 },
            CountryTwo := { Country := r.compareRequest.NameTwo, Data := d2 } }, 200) ∧
      (∀ p ∈ [(deathsSeries r.compareRequest.NameOne, d1),
          (deathsSeries r.compareRequest.NameTwo, d2)],
        ∀ zeros x rest, p.1 = zeros ++ x :: rest → (∀ z ∈ zeros, z = 0) → x ≠ 0 →
          p.2 = x :: rest) ∧
      (∀ other : String → List Int,
        other r.compareRequest.NameOne = deathsSeries r.compareRequest.NameOne →
          (CompareDeathsFromFirstDeathCountries other r.compareRequest.NameOne
            r.compareRequest.NameTwo).CountryOne.Data = d1) ∧
      (∀ other : String → List Int,
        other r.compareRequest.NameTwo = deathsSeries r.compareRequest.NameTwo →
          (CompareDeathsFromFirstDeathCountries other r.compareRequest.NameOne
            r.compareRequest.NameTwo).CountryTwo.Data = d2) := by
  refine ⟨fromFirstEvent (deathsSeries r.compareRequest.NameOne),
    fromFirstEvent (deathsSeries r.compareRequest.NameTwo), ?_, ?_, ?_, ?_⟩
  · simp only [PerformFromFirstDeath, hRead, CompareDeathsFromFirstDeathCountries]
  · intro p hp
    simp only [List.mem_cons, List.mem_singleton, List.not_mem_nil, or_false] at hp
    rcases hp with rfl | rfl
    · intro zeros x rest hs hz hx
      have hs2 : deathsSeries r.compareRequest.NameOne = zeros ++ x :: rest := hs
      show fromFirstEvent (deathsSeries r.compareRequest.NameOne) = x :: rest
      rw [hs2]
      exact fromFirstEvent_of_split zeros rest x hz hx
    · intro zeros x rest hs hz hx
      have hs2 : deathsSeries r.compareRequest.NameTwo = zeros ++ x :: rest := hs
      show fromFirstEvent (deathsSeries r.compareRequest.NameTwo) = x :: rest
      rw [hs2]
      exact fromFirstEvent_of_split zeros rest x hz hx
  · intro other h
    simp only [CompareDeathsFromFirstDeathCountries, h]
  · intro other h
    simp only [CompareDeathsFromFirstDeathCountries, h]

/-- C22 at the series [0, 0, 5, 9] of Spain and [0, 3, 4, 6] of Greece: the trimmed series
are [5, 9] and [3, 4, 6], each starting at its own first non-zero entry. -/
theorem PerformFromFirstDeath_trims_witness :
    PerformFromFirstDeath exampleDeaths
        { readAllError := none, compareRequest := { NameOne := "Spain", NameTwo := "Greece" } } =
      (CompareResponseBody.compare
        { CountryOne := { Country := "Spain", Data := [5, 9] },
          CountryTwo := { Country := "Greece", Data := [3, 4, 6] } }, 200) := by
  obtain ⟨d1, d2, h, hTrim, _, _⟩ := PerformFromFirstDeath_trims exampleDeaths
    { readAllError := none, compareRequest := { NameOne := "Spain", NameTwo := "Greece" } } rfl
  have hSpain : exampleDeaths "Spain" = [0, 0] ++ 5 :: [9] := by decide
  have hGreece : exampleDeaths "Greece" = [0] ++ 3 :: [4, 6] := by decide
  have h1 : d1 = [5, 9] :=
    hTrim (exampleDeaths "Spain", d1) (by simp) [0, 0] 5 [9] hSpain (by decide) (by decide)
  have h2 : d2 = [3, 4, 6] :=
    hTrim (exampleDeaths "Greece", d2) (by simp) [0] 3 [4, 6] hGreece (by decide) (by decide)
  rw [h, h1, h2]

/-! ## Frame properties -/

/-- C23: for every dataset returned by `GetAllCountries`, under the contract of
`sort.Slice`, the output of each of the eight `SortBy...` functions is a permutation of
that dataset: it has the same length and holds every record the same number of times. -/
theorem SortBy_permutation
    (sortSlice : (Country → Country → Bool) → List Country → List Country)
    (w : World) (ds : List Country) (hSort : SliceSortContract sortSlice)
    (hAll : (GetAllCountries w).1 = ({ Data := ds }, none)) :
    ∀ f ∈ [SortByCases sortSlice, SortByDeaths sortSlice, SortByTodayCases sortSlice,
        SortByTodayDeaths sortSlice, SortByRecovered sortSlice, SortByActive sortSlice,
        SortByCritical sortSlice, SortByCasesPerOneMillion sortSlice],
      ∃ out, (f w).1 = ({ Data := out }, none) ∧ out.Perm ds ∧
        out.length = ds.length ∧ ∀ v, out.count v = ds.count v := by
  have key : ∀ less, ∃ out, (sortCountriesBy sortSlice less w).1 = ({ Data := out }, none) ∧
      out.Perm ds ∧ out.length = ds.length ∧ ∀ v, out.count v = ds.count v :=
    fun less => ⟨_, sortCountriesBy_of_dataset sortSlice less w ds hAll, (hSort less ds).1,
      (hSort less ds).1.length_eq, fun v => (hSort less ds).1.count_eq v⟩
  intro f hf
  simp only [List.mem_cons, List.mem_singleton, List.not_mem_nil, or_false] at hf
  rcases hf with rfl | rfl | rfl | rfl | rfl | rfl | rfl | rfl
  · exact key lessCases
  · exact key lessDeaths
  · exact key lessTodayCases
  · exact key lessTodayDeaths
  · exact key lessRecovered
  · exact key lessActive
  · exact key lessCritical
  · exact key lessCasesPerOneMillion

/-- C23 at the seven records: the output of `SortByTodayCases` is a permutation of them
and has seven records. -/
theorem SortBy_permutation_witness :
    ∃ out, (SortByTodayCases sortSliceShort (warmWorld sevenRecords [])).1 =
        ({ Data := out }, none) ∧ out.Perm sevenRecords ∧ out.length = 7 := by
  obtain ⟨out, hOut, hPerm, hLen, _⟩ := SortBy_permutation sortSliceShort
    (warmWorld sevenRecords []) sevenRecords sortSliceShort_contract (by decide)
    (SortByTodayCases sortSliceShort) (by simp)
  exact ⟨out, hOut, hPerm, hLen.trans (by decide)⟩

/-- C24: on every call of `GetAllCountries`, whichever path it returns by (lookup error,
cache hit, upstream error, successful fetch), the calls it adds to the trace start with
the acquisition of the connection and end with its release, and no other acquisition or
release lies between: the connection acquired is closed exactly once, as the last call
before the return. -/
theorem GetAllCountries_closes_connection_once (w : World) :
    ∃ mid, (GetAllCountries w).2.trace =
        w.trace ++ (Event.connGet :: mid ++ [Event.connClose]) ∧
      Event.connGet ∉ mid ∧ Event.connClose ∉ mid ∧
      (Event.connGet :: mid ++ [Event.connClose]).count Event.connClose = 1 := by
  rcases hGet : (caching.Get w "total").1 with ⟨d, getErr⟩
  cases getErr with
  | some e =>
    rw [GetAllCountries_of_lookup_error w e (by rw [hGet])]
    refine ⟨[Event.cacheGet "total"], by simp [World.record], by simp, by simp, by decide⟩
  | none =>
    by_cases hd : d.Data = []
    · rcases hUp : (requestData w).1 with ⟨R, upErr⟩
      cases upErr with
      | some e =>
        rw [GetAllCountries_of_miss_error w d e hGet hd (by rw [hUp])]
        refine ⟨[Event.cacheGet "total", Event.requestData], by simp [World.record],
          by simp, by simp, by decide⟩
      | none =>
        rw [GetAllCountries_of_miss_fetch w d R hGet hd hUp]
        refine ⟨[Event.cacheGet "total", Event.requestData,
          Event.cacheSet "total" { Data := R }], ?_, by simp, by simp, ?_⟩
        · simp only [caching.Set, World.record]
          cases w.setFault <;> simp
        · simp [List.count_cons]
    · rw [GetAllCountries_of_hit w d hGet hd]
      refine ⟨[Event.cacheGet "total"], by simp [World.record], by simp, by simp, by decide⟩

end Covid
